import Mathlib

/-!
Verification of the CineBox scan–reconcile–enrich pipeline.

This file gives a shallow embedding of the core of the repository:

* `Media` mirrors `models/media_model.py` (`Media` dataclass); Python floats
  are modelled as rationals, Python `None` as `Option.none`.
* `Categorizer` mirrors `core/categorizer.py` (`MediaCategorizer`).
* `Enricher` mirrors `core/enricher.py` (`MediaEnricher`), with the TMDB
  service abstracted as an oracle of per-endpoint results; the enricher's
  per-run memo dictionaries are omitted because with a fixed oracle they are
  observationally transparent.
* `Driver` mirrors the per-file reconciliation loop of `main.py`
  (`_is_unchanged`, `_carry_forward_metadata`, `_process_and_upsert_media`,
  `_handle_media_processing_error`); database calls and exceptions are
  modelled through an explicit per-file environment and an event trace.
* `Service` mirrors the two-tier cache of `services/tmdb_service.py`
  (`TMDBService`), including `clean_movie_title` and the fact that
  `get_tv_season_count` performs a remote request on every invocation.

Python regular-expression searches are modelled by explicit character-list
matchers, with `re.search` realised as a search over all suffixes.
-/

namespace CineBox

/-- Mirror of the `Media` dataclass in `models/media_model.py`.  Python
floats (sizes, durations, timestamps, ratings) are modelled as rationals;
`datetime` values (`last_scanned`) are likewise modelled as rational
timestamps, which is faithful for every property proved here. -/
structure Media where
  file_path : String
  file_name : String
  file_size_mb : ℚ
  duration_seconds : ℚ
  resolution : Option String := none
  title : Option String := none
  category : Option String := none
  release_date : Option String := none
  director : Option String := none
  writers : Option String := none
  producers : Option String := none
  runtime_minutes : Option Int := none
  imdb_rating : Option ℚ := none
  poster_path : Option String := none
  last_scanned : Option ℚ := none
  file_modified_time : Option ℚ := none
  error_message : Option String := none
  error_location : Option String := none
  season_number : Option Int := none
  episode_number : Option Int := none
  episode_title : Option String := none
  episode_air_date : Option String := none
deriving DecidableEq, Repr

/-- A Python exception as observed by the pipeline: whether it is a
`DatabaseError` (the only kind the error handler's inner `try` catches),
its message (`str(exc)`) and the source location computed by
`get_exception_location` (which always returns a string, with an
`"unknown"` fallback). -/
structure PyExc where
  isDb : Bool := false
  msg : String
  loc : String
deriving DecidableEq, Repr

namespace Text

/-- Whether the pattern is a prefix of the text, character by character. -/
def startsWithList : List Char → List Char → Bool
  | [], _ => true
  | _ :: _, [] => false
  | p :: ps, t :: ts => p == t && startsWithList ps ts

/-- Python's substring test `pat in txt`: some suffix of `txt` starts with
`pat`. -/
def containsSub (pat : List Char) : List Char → Bool
  | [] => startsWithList pat []
  | c :: rest => startsWithList pat (c :: rest) || containsSub pat rest

/-- Run a positional matcher at every suffix, mirroring `re.search`. -/
def anySuffix (p : List Char → Bool) : List Char → Bool
  | [] => p []
  | c :: rest => p (c :: rest) || anySuffix p rest

/-- Python regex word character (`\w` over ASCII inputs). -/
def isWordChar (c : Char) : Bool := c.isAlphanum || c == '_'

/-- Python regex whitespace (`\s` over ASCII inputs). -/
def isSpaceWs (c : Char) : Bool :=
  c == ' ' || c == '\t' || c == '\n' || c == '\r' || c == '\x0b' || c == '\x0c'

/-- ASCII decimal digit test (`\d` over ASCII inputs). -/
def isDigitChar (c : Char) : Bool := '0' ≤ c && c ≤ '9'

end Text

namespace Categorizer

open Text

/-- The fixed keyword set of `MediaCategorizer._is_anime`. -/
def animeKeywords : List String :=
  ["anime", "animedub", "anime-dub", "crunchyroll", "subsplease",
   "erai-raws", "horriblesubs"]

/-- Positional matcher for the tail `\s-\s\d{1,4}\b` of the fansub pattern:
one whitespace, a dash, one whitespace, then one to four digits followed by
a word boundary.  Because a digit is a word character, backtracking inside
`\d{1,4}` cannot rescue a failed boundary, so the maximal digit run decides
the match. -/
def dashEpisodeAt : List Char → Bool
  | w1 :: '-' :: w2 :: rest =>
      isSpaceWs w1 && isSpaceWs w2 &&
        (let ds := rest.takeWhile isDigitChar
         decide (1 ≤ ds.length) && decide (ds.length ≤ 4) &&
           (match rest.dropWhile isDigitChar with
            | [] => true
            | c :: _ => !isWordChar c))
  | _ => false

/-- Mirror of the fansub-release pattern `^\[[^\]]+\].*?\s-\s\d{1,4}\b`
searched by `MediaCategorizer._is_anime`: the name starts with a bracketed
group tag, and somewhere after the closing bracket a space-dash-space is
followed by a 1–4 digit episode number at a word boundary. -/
def fansubMatch (name : String) : Bool :=
  match name.data with
  | '[' :: rest =>
      (let inner := rest.takeWhile (fun c => c != ']')
       match rest.dropWhile (fun c => c != ']') with
       | ']' :: rem => decide (1 ≤ inner.length) && anySuffix dashEpisodeAt rem
       | _ => false)
  | _ => false

/-- Mirror of `MediaCategorizer._is_anime`: keyword substring match against
the lower-cased concatenation of file path, file name and title, or the
fansub filename pattern. -/
def isAnime (m : Media) : Bool :=
  let normalized :=
    ((m.file_path ++ " " ++ m.file_name ++ " " ++ m.title.getD "")).data.map Char.toLower
  animeKeywords.any (fun k => containsSub k.data normalized) || fansubMatch m.file_name

/-- The movie-metadata test of `MediaCategorizer.categorize` (any of the
seven enrichment fields is non-null). -/
def hasMovieMetadata (m : Media) : Bool :=
  m.title.isSome || m.release_date.isSome || m.runtime_minutes.isSome ||
    m.director.isSome || m.writers.isSome || m.producers.isSome || m.imdb_rating.isSome

/-- Mirror of `MediaCategorizer.categorize`. -/
def categorize (m : Media) : Media :=
  if m.category = some "error" then m
  else if isAnime m then { m with category := some "anime" }
  else if m.season_number.isSome && m.episode_number.isSome then
    { m with category := some "tv" }
  else if hasMovieMetadata m then { m with category := some "movie" }
  else { m with category := some "others" }

end Categorizer

namespace Enricher

open Text

/-- Numeric value of an ASCII digit. -/
def digitVal (c : Char) : Nat := c.toNat - '0'.toNat

/-- Positional matcher for `S\d+E\d+` (case-insensitive).  Greedy `\d+`
with backtracking accepts exactly when the nonempty digit run after the
`S` is immediately followed by `E` and a digit, because `E` is not a digit
and so only the maximal run can be followed by an `E`. -/
def seAt : List Char → Bool
  | s :: rest =>
      (s == 'S' || s == 's') &&
        (match rest with
         | d0 :: _ =>
             isDigitChar d0 &&
               (match rest.dropWhile isDigitChar with
                | e :: d :: _ => (e == 'E' || e == 'e') && isDigitChar d
                | _ => false)
         | [] => false)
  | [] => false

/-- Mirror of `MediaEnricher._is_tv_episode`:
`re.search(r"S\d+E\d+", filename, re.IGNORECASE)` is non-null. -/
def isTvEpisode (filename : String) : Bool := anySuffix seAt filename.data

/-- Trailing group `(\d{1,2})` of the extraction patterns: greedy, so two
digits are captured when available, else one. -/
def capDigits2 : List Char → Option Nat
  | d1 :: d2 :: _ =>
      if isDigitChar d1 then
        if isDigitChar d2 then some (10 * digitVal d1 + digitVal d2)
        else some (digitVal d1)
      else none
  | [d1] => if isDigitChar d1 then some (digitVal d1) else none
  | [] => none

/-- Suffix `E(\d{1,2})` of the season/episode pattern. -/
def eTail (season : Nat) : List Char → Option (Nat × Nat)
  | e :: rest =>
      if e == 'E' || e == 'e' then (capDigits2 rest).map (fun ep => (season, ep))
      else none
  | [] => none

/-- Suffix `[.\-_ ]?E(\d{1,2})`; the greedy optional separator is tried
consumed first, then skipped. -/
def afterSeason (season : Nat) (l : List Char) : Option (Nat × Nat) :=
  (match l with
   | c :: rest =>
       if c == '.' || c == '-' || c == '_' || c == ' ' then eTail season rest else none
   | [] => none) <|> eTail season l

/-- Positional matcher for `S(\d{1,2})[.\-_ ]?E(\d{1,2})`
(case-insensitive), with the greedy two-digit season capture tried before
the one-digit fallback. -/
def seCapAt : List Char → Option (Nat × Nat)
  | s :: rest =>
      if s == 'S' || s == 's' then
        match rest with
        | d1 :: rest1 =>
            if isDigitChar d1 then
              match rest1 with
              | d2 :: rest2 =>
                  (if isDigitChar d2 then afterSeason (10 * digitVal d1 + digitVal d2) rest2
                   else none) <|> afterSeason (digitVal d1) rest1
              | [] => afterSeason (digitVal d1) []
            else none
        | [] => none
      else none
  | [] => none

/-- Suffix `x(\d{1,2})` (case-insensitive) of the second extraction
pattern. -/
def xTail (n : Nat) : List Char → Option (Nat × Nat)
  | x :: rest =>
      if x == 'x' || x == 'X' then (capDigits2 rest).map (fun ep => (n, ep))
      else none
  | [] => none

/-- Positional matcher for `(\d{1,2})x(\d{1,2})` (case-insensitive). -/
def xCapAt : List Char → Option (Nat × Nat)
  | d1 :: rest =>
      if isDigitChar d1 then
        match rest with
        | d2 :: rest2 =>
            (if isDigitChar d2 then xTail (10 * digitVal d1 + digitVal d2) rest2
             else none) <|> xTail (digitVal d1) rest
        | [] => none
      else none
  | [] => none

/-- Leftmost `re.search` with captures: try the positional matcher at each
suffix, left to right. -/
def searchCap (p : List Char → Option (Nat × Nat)) : List Char → Option (Nat × Nat)
  | [] => p []
  | c :: rest => p (c :: rest) <|> searchCap p rest

/-- Mirror of `MediaEnricher._extract_season_episode`: the `S..E..` pattern
is tried first, then the `..x..` pattern; on failure both components are
null. -/
def extractSeasonEpisode (m : Media) : Option Int × Option Int :=
  match searchCap seCapAt m.file_name.data with
  | some (s, e) => (some (Int.ofNat s), some (Int.ofNat e))
  | none =>
      match searchCap xCapAt m.file_name.data with
      | some (s, e) => (some (Int.ofNat s), some (Int.ofNat e))
      | none => (none, none)

/-- Declarative reading of a successful `re.search(r"S\d+E\d+", f, re.IGNORECASE)`:
somewhere in the filename an `S` (either case) is followed by a nonempty
digit run, an `E` (either case) and a digit. -/
def SEPattern (f : String) : Prop :=
  ∃ pre ds post s e d, f.data = pre ++ s :: (ds ++ e :: d :: post) ∧
    (s = 'S' ∨ s = 's') ∧ ds ≠ [] ∧ (∀ c ∈ ds, isDigitChar c = true) ∧
    (e = 'E' ∨ e = 'e') ∧ isDigitChar d = true

/-- A TMDB search hit as consumed by the enricher (the mapped dictionary
built by `TMDBService.search_movie` / `search_tv`; only `id` is read by the
enricher).  The service never produces an empty dictionary, so Python's
falsiness test on a non-`None` result cannot fire and `Option` is a
faithful model. -/
structure SearchHit where
  id : Option Int := none
  title : Option String := none
  release_date : Option String := none
  tmdb_rating : Option ℚ := none
deriving DecidableEq, Repr

/-- The mapped details dictionary consumed by `_enrich_movie` (and, minus
`runtime`, by the show-details block of `_enrich_tv`). -/
structure ShowDetails where
  title : Option String := none
  release_date : Option String := none
  runtime : Option Int := none
  director : Option String := none
  writers : Option String := none
  producers : Option String := none
  imdb_rating : Option ℚ := none
deriving DecidableEq, Repr

/-- The mapped episode-details dictionary consumed by `_enrich_tv`. -/
structure EpisodeDetails where
  episode_title : Option String := none
  air_date : Option String := none
  runtime : Option Int := none
deriving DecidableEq, Repr

/-- Oracle for the TMDB service as seen from `MediaEnricher`: one function
per endpoint, returning either a checked `TMDBServiceError` or a
result-or-absent value.  The enricher's per-run memo dictionaries
(`_cached_search_movie` and friends) are omitted: with a fixed oracle they
only avoid repeated identical calls and never change a returned value. -/
structure Tmdb where
  searchMovie : String → Except PyExc (Option SearchHit)
  getMovieDetails : Int → Except PyExc (Option ShowDetails)
  searchTv : String → Except PyExc (Option SearchHit)
  getTvDetails : Int → Except PyExc (Option ShowDetails)
  getTvSeasonCount : Int → Except PyExc (Option Int)
  getTvEpisodeDetails : Int → Int → Int → Except PyExc (Option EpisodeDetails)

/-- Components of a POSIX path as produced by `pathlib`; empty and `"."`
segments are normalized away (the scanner stores resolved absolute
paths). -/
def pathParts (p : String) : List String :=
  (p.splitOn "/").filter fun s => s != "" && s != "."

/-- Mirror of `MediaEnricher._extract_title_source`: for a TV episode use
the grandparent directory name (`path.parents[1].name`, when at least two
parents exist — the name is empty when `parents[1]` is the root or `"."`);
otherwise the filename. -/
def extractTitleSource (m : Media) : String :=
  let parts := pathParts m.file_path
  if isTvEpisode m.file_name then
    if 2 ≤ parts.length then
      (if 3 ≤ parts.length then parts.getD (parts.length - 3) "" else "")
    else m.file_name
  else m.file_name

/-- Mirror of `MediaEnricher._mark_error`. -/
def markError (m : Media) (e : PyExc) : Media :=
  { m with
    category := some "error",
    error_message := some e.msg,
    error_location := some e.loc }

/-- Mirror of `MediaEnricher._enrich_movie`.  A raised service error
carries the record state at the moment of the raise (Python mutates the
record in place), which for the movie path is always the unmodified
record. -/
def enrichMovie (t : Tmdb) (m : Media) (titleSource : String) :
    Except (Media × PyExc) Media :=
  match t.searchMovie titleSource with
  | .error e => .error (m, e)
  | .ok none => .ok m
  | .ok (some hit) =>
      match hit.id with
      | none => .ok m
      | some movieId =>
          match t.getMovieDetails movieId with
          | .error e => .error (m, e)
          | .ok none => .ok m
          | .ok (some d) =>
              .ok { m with
                    title := d.title,
                    release_date := d.release_date,
                    runtime_minutes := d.runtime,
                    director := d.director,
                    writers := d.writers,
                    producers := d.producers,
                    imdb_rating := d.imdb_rating }

/-- The show-details assignment block of `MediaEnricher._enrich_tv`. -/
def applyShowDetails (m : Media) (d : ShowDetails) : Media :=
  { m with
    title := d.title,
    release_date := d.release_date,
    director := d.director,
    writers := d.writers,
    producers := d.producers,
    imdb_rating := d.imdb_rating }

/-- Mirror of `MediaEnricher._enrich_tv`, including the season-bounds
guard (`available_seasons is not None and season > available_seasons`).
An error raised after the show-details block carries the partially
updated record, as in Python. -/
def enrichTv (t : Tmdb) (m : Media) (titleSource : String) :
    Except (Media × PyExc) Media :=
  match t.searchTv titleSource with
  | .error e => .error (m, e)
  | .ok none => .ok m
  | .ok (some hit) =>
      match hit.id with
      | none => .ok m
      | some tvId =>
          match extractSeasonEpisode m with
          | (some season, some episode) =>
              (match t.getTvSeasonCount tvId with
               | .error e => .error (m, e)
               | .ok cnt =>
                   if (match cnt with
                       | some c => decide (season > c)
                       | none => false) then .ok m
                   else
                     match t.getTvDetails tvId with
                     | .error e => .error (m, e)
                     | .ok sd =>
                         let m1 := match sd with
                           | some d => applyShowDetails m d
                           | none => m
                         match t.getTvEpisodeDetails tvId season episode with
                         | .error e => .error (m1, e)
                         | .ok none => .ok m1
                         | .ok (some ed) =>
                             .ok { m1 with
                                   season_number := some season,
                                   episode_number := some episode,
                                   episode_title := ed.episode_title,
                                   episode_air_date := ed.air_date,
                                   runtime_minutes := ed.runtime })
          | _ => .ok m

/-- Mirror of `MediaEnricher.enrich`: clear the error channel, pick the TV
or movie path by filename classification, and convert any raised service
error into record-level error state.  As a total Lean function it cannot
raise, matching the Python contract. -/
def enrich (t : Tmdb) (m0 : Media) : Media :=
  let m := { m0 with error_message := none, error_location := none }
  let titleSource := extractTitleSource m
  match (if isTvEpisode m.file_name then enrichTv t m titleSource
         else enrichMovie t m titleSource) with
  | .ok m1 => m1
  | .error (mp, e) => markError mp e

end Enricher

namespace Driver

/-- One storage or enrichment effect performed while processing a single
scanned file; failed attempts are traced like successful ones. -/
inductive Ev
  | read
  | write (m : Media)
  | enrichCall
deriving DecidableEq, Repr

/-- Per-file environment for `_process_and_upsert_media`: the store
content visible to lookups, fault injections for the two possible reads
and the two possible write attempts (in program order), and the enricher
the driver was given.  `enrichFn` returns the (possibly partially
mutated) record together with an optional raised exception, mirroring
Python's in-place mutation. -/
structure Env where
  lookup : String → Option Media
  read1Exc : Option PyExc := none
  read2Exc : Option PyExc := none
  write1Exc : Option PyExc := none
  write2Exc : Option PyExc := none
  enrichFn : Media → Media × Option PyExc

/-- Outcome of processing one scanned file: the effect trace, the record
stored by the single successful write (if any), and an exception escaping
the per-file step (possible only from the error handler, which catches
only `DatabaseError`). -/
structure StepResult where
  events : List Ev
  persisted : Option Media
  escaped : Option PyExc
deriving Repr

/-- Python's `abs` on a rational, written so that it evaluates by kernel
reduction (it equals `|q|`, see `ratAbs_eq_abs`). -/
def ratAbs (q : ℚ) : ℚ := if q < 0 then -q else q

/-- Mirror of `_is_unchanged` in `main.py`, tolerance `0.001`. -/
def isUnchanged (scanned existing : Media) (toleranceSeconds : ℚ := 1/1000) : Bool :=
  match scanned.file_modified_time, existing.file_modified_time with
  | some a, some b => decide (ratAbs (a - b) ≤ toleranceSeconds)
  | _, _ => false

/-- Mirror of `_carry_forward_metadata` in `main.py`. -/
def carryForward (scanned existing : Media) : Media :=
  { scanned with
    title := existing.title,
    category := existing.category,
    release_date := existing.release_date,
    director := existing.director,
    writers := existing.writers,
    producers := existing.producers,
    runtime_minutes := existing.runtime_minutes,
    imdb_rating := existing.imdb_rating,
    poster_path := existing.poster_path,
    error_message := existing.error_message,
    error_location := existing.error_location,
    season_number := existing.season_number,
    episode_number := existing.episode_number,
    episode_title := existing.episode_title,
    episode_air_date := existing.episode_air_date }

/-- Mirror of `_handle_media_processing_error`: mark the record as an
error, then re-read the store and attempt a best-effort write; only a
`DatabaseError` from that inner block is swallowed, anything else
escapes. -/
def handleError (env : Env) (media0 : Media) (exc : PyExc) (evs : List Ev) : StepResult :=
  let media := { media0 with
    category := some "error",
    error_message := some exc.msg,
    error_location := some exc.loc }
  match env.read2Exc with
  | some e2 =>
      if e2.isDb then
        { events := evs ++ [Ev.read], persisted := none, escaped := none }
      else
        { events := evs ++ [Ev.read], persisted := none, escaped := some e2 }
  | none =>
      match env.write2Exc with
      | some e2 =>
          if e2.isDb then
            { events := evs ++ [Ev.read, Ev.write media], persisted := none, escaped := none }
          else
            { events := evs ++ [Ev.read, Ev.write media], persisted := none, escaped := some e2 }
      | none =>
          { events := evs ++ [Ev.read, Ev.write media], persisted := some media, escaped := none }

/-- The `insert`/`update` call of the main path (both are modelled as a
write event; the driver chooses between them by the earlier lookup). -/
def attemptPersist (env : Env) (media : Media) (evs : List Ev) : StepResult :=
  match env.write1Exc with
  | some e => handleError env media e (evs ++ [Ev.write media])
  | none =>
      { events := evs ++ [Ev.write media], persisted := some media, escaped := none }

/-- The refresh branch: run the enricher (which may raise) and then the
categorizer on the freshly scanned record, then persist. -/
def runEnrichPath (env : Env) (scanned : Media) (evs : List Ev) : StepResult :=
  match env.enrichFn scanned with
  | (m1, some e) => handleError env m1 e (evs ++ [Ev.enrichCall])
  | (m1, none) => attemptPersist env (Categorizer.categorize m1) (evs ++ [Ev.enrichCall])

/-- Mirror of one iteration of the loop in `_process_and_upsert_media`:
stamp `last_scanned`, look up the existing record, reuse it when the
modification time is unchanged, otherwise enrich and categorize; persist;
any exception is routed to `_handle_media_processing_error`. -/
def processOne (env : Env) (scanned0 : Media) (ts : ℚ) : StepResult :=
  let scanned := { scanned0 with last_scanned := some ts }
  match env.read1Exc with
  | some e => handleError env scanned e [Ev.read]
  | none =>
      match env.lookup scanned.file_path with
      | some existing =>
          if isUnchanged scanned existing then
            attemptPersist env (carryForward scanned existing) [Ev.read]
          else
            runEnrichPath env scanned [Ev.read]
      | none => runEnrichPath env scanned [Ev.read]

/-- Mirror of the whole batch loop: items are processed in order; an
exception escaping a per-file step aborts the remainder of the batch (the
loop body has no surrounding handler). -/
def processBatch (items : List (Env × Media)) (ts : ℚ) : List StepResult × Option PyExc :=
  match items with
  | [] => ([], none)
  | (env, m) :: rest =>
      let r := processOne env m ts
      match r.escaped with
      | some e => ([r], some e)
      | none =>
          let tail := processBatch rest ts
          (r :: tail.1, tail.2)

/-- Storage-read counter over an effect trace. -/
def isReadEv : Ev → Bool
  | .read => true
  | _ => false

/-- Storage-write counter over an effect trace (attempts included). -/
def isWriteEv : Ev → Bool
  | .write _ => true
  | _ => false

/-- Number of storage reads (lookups) performed. -/
def countReads (evs : List Ev) : Nat := (evs.filter isReadEv).length

/-- Number of storage write attempts performed. -/
def countWrites (evs : List Ev) : Nat := (evs.filter isWriteEv).length

/-- The first exception raised while processing one file, if any, in
program order: the initial lookup, then (on the refresh branch) the
enricher, then the first write attempt. -/
def enrichPathExc (env : Env) (scanned : Media) : Option PyExc :=
  match (env.enrichFn scanned).2 with
  | some e => some e
  | none => env.write1Exc

/-- First exception of the whole per-file step (specification device for
the error-handling claims). -/
def firstExc (env : Env) (scanned : Media) : Option PyExc :=
  match env.read1Exc with
  | some e => some e
  | none =>
      match env.lookup scanned.file_path with
      | some ex =>
          if isUnchanged scanned ex then env.write1Exc
          else enrichPathExc env scanned
      | none => enrichPathExc env scanned

/-- An environment whose error-handler faults (second read, second write)
are database errors only — the behaviour of `DatabaseManager`, which wraps
every `sqlite3.Error` into `DatabaseError`. -/
def dbOnlyEnv (env : Env) : Prop :=
  (∀ e, env.read2Exc = some e → e.isDb = true) ∧
  (∀ e, env.write2Exc = some e → e.isDb = true)

/-- The driver's enricher as constructed in `main`: the real
`MediaEnricher.enrich`, which never raises. -/
def realEnrichFn (t : Enricher.Tmdb) : Media → Media × Option PyExc :=
  fun m => (Enricher.enrich t m, none)

/-- The record-level error invariant of the data model. -/
def errorInvariant (m : Media) : Prop :=
  (m.category = some "error" ↔ m.error_message ≠ none) ∧
  (m.category ≠ some "error" → m.error_message = none ∧ m.error_location = none)

end Driver

namespace Service

open Text Enricher

/-- Row lookup in a cache table: `none` means the row does not exist;
`some v` means a row exists with payload `v`, where `v = none` is the
explicit null-payload "absent" marker (`response_json = "null"`),
distinguishable from a missing row. -/
def lookupRow {κ α : Type} [DecidableEq κ] : List (κ × Option α) → κ → Option (Option α)
  | [], _ => none
  | (k, v) :: rest, key => if key = k then some v else lookupRow rest key

/-- Keyed upsert into a cache table (`INSERT ... ON CONFLICT DO UPDATE`);
the new row shadows any older one. -/
def insertRow {κ α : Type} [DecidableEq κ] (table : List (κ × Option α)) (key : κ)
    (v : Option α) : List (κ × Option α) :=
  (key, v) :: table

/-- The two-tier fetch protocol shared by the five cached operations of
`TMDBService` (their per-operation bodies plus the generic
`_read_persistent_cache` / `_write_persistent_cache`): in-process hit
returns immediately (including a cached absent marker); else a persistent
hit back-fills the in-process tier and returns; else the remote request
runs once and the result — present or absent — is stored in both tiers.
Returns the result, the updated in-process tier, the updated persistent
tier and the number of remote requests performed. -/
def twoTierFetch {κ α : Type} [DecidableEq κ] (remote : Option α)
    (mem persist : List (κ × Option α)) (key : κ) :
    Option α × List (κ × Option α) × List (κ × Option α) × Nat :=
  match lookupRow mem key with
  | some v => (v, mem, persist, 0)
  | none =>
      match lookupRow persist key with
      | some v => (v, insertRow mem key v, persist, 0)
      | none => (remote, insertRow mem key remote, insertRow persist key remote, 1)

/-- ASCII letter or digit (`[A-Za-z0-9]`). -/
def isAlnumAscii (c : Char) : Bool := c.isAlpha || isDigitChar c

/-- Step 1 of `clean_movie_title`: `re.sub(r"\.[A-Za-z0-9]{2,4}$", "", t)`.
A match exists exactly when the trailing alphanumeric run has length 2–4
and is preceded by a dot. -/
def stripExtension (cs : List Char) : List Char :=
  let revTail := cs.reverse.takeWhile isAlnumAscii
  let k := revTail.length
  if 2 ≤ k ∧ k ≤ 4 then
    match cs.reverse.drop k with
    | '.' :: _ => (cs.reverse.drop (k + 1)).reverse
    | _ => cs
  else cs

/-- Opening bracket class `[\[\(\{]`. -/
def isOpenBr (c : Char) : Bool := c == '[' || c == '(' || c == '\x7b'

/-- Closing bracket class `[\]\)\}]`. -/
def isCloseBr (c : Char) : Bool := c == ']' || c == ')' || c == '\x7d'

/-- Step 2 of `clean_movie_title`:
`re.sub(r"[\[\(\{].*?[\]\)\}]", " ", t)` — every bracketed group, from an
opening bracket to the lazily-nearest closing bracket of any kind, is
replaced by one space; an opener with no closer stays. -/
def stripBracketGroups : List Char → List Char
  | [] => []
  | c :: rest =>
      if isOpenBr c then
        match h : rest.dropWhile (fun x => !isCloseBr x) with
        | [] => c :: stripBracketGroups rest
        | _ :: tail => ' ' :: stripBracketGroups tail
      else c :: stripBracketGroups rest
termination_by cs => cs.length
decreasing_by
  all_goals simp_wf
  all_goals first
    | omega
    | (have hle := (List.dropWhile_sublist (fun x => !isCloseBr x) (l := rest)).length_le
       rw [h] at hle
       simp at hle
       omega)

/-- Case-insensitive token-prefix match; returns the number of characters
consumed. -/
def matchTokenLen : List Char → List Char → Option Nat
  | [], _ => some 0
  | _ :: _, [] => none
  | t :: ts, c :: cs =>
      if c.toLower == t.toLower then (matchTokenLen ts cs).map (· + 1) else none

/-- First alternative (in pattern order) that matches at this position
with a word boundary after it; the boundary before is checked by the
caller.  Returns the consumed length. -/
def firstTokenLen (toks : List (List Char)) (text : List Char) : Option Nat :=
  match toks with
  | [] => none
  | t :: ts =>
      match matchTokenLen t text with
      | some k =>
          (match text.drop k with
           | [] => some k
           | c :: _ => if isWordChar c then firstTokenLen ts text else some k)
      | none => firstTokenLen ts text

/-- One `re.sub(r"\b(tok|...)\b", " ", t, re.IGNORECASE)` pass: scan left
to right tracking whether the previous character is a word character (the
leading `\b`); every boundary-delimited token occurrence becomes one
space.  All tokens end in word characters, so after a replacement the
previous-character flag is set. -/
def subTokens (toks : List (List Char)) : Bool → List Char → List Char
  | _, [] => []
  | prevWord, c :: rest =>
      if !prevWord then
        match firstTokenLen toks (c :: rest) with
        | some k => ' ' :: subTokens toks true (rest.drop (k - 1))
        | none => c :: subTokens toks (isWordChar c) rest
      else c :: subTokens toks (isWordChar c) rest
termination_by _ cs => cs.length
decreasing_by
  all_goals simp_wf
  all_goals omega

/-- Separator class of step 6 (`[._-]`). -/
def isSepChar (c : Char) : Bool := c == '.' || c == '_' || c == '-'

/-- Step 6 of `clean_movie_title`: `re.sub(r"[._-]+", " ", t)`. -/
def collapseSeps : List Char → List Char
  | [] => []
  | c :: rest =>
      if isSepChar c then ' ' :: collapseSeps (rest.dropWhile isSepChar)
      else c :: collapseSeps rest
termination_by cs => cs.length
decreasing_by
  all_goals simp_wf
  all_goals first
    | omega
    | (have hle := (List.dropWhile_sublist isSepChar (l := rest)).length_le
       omega)

/-- Step 7 of `clean_movie_title`: `re.sub(r"\s+", " ", t)`. -/
def collapseWs : List Char → List Char
  | [] => []
  | c :: rest =>
      if isSpaceWs c then ' ' :: collapseWs (rest.dropWhile isSpaceWs)
      else c :: collapseWs rest
termination_by cs => cs.length
decreasing_by
  all_goals simp_wf
  all_goals first
    | omega
    | (have hle := (List.dropWhile_sublist isSpaceWs (l := rest)).length_le
       omega)

/-- Python's `str.strip()`. -/
def stripWs (cs : List Char) : List Char :=
  ((cs.dropWhile isSpaceWs).reverse.dropWhile isSpaceWs).reverse

/-- Mirror of `TMDBService.clean_movie_title` (the Title Normalizer):
strip, drop the extension, blank bracketed groups, remove resolution then
codec then audio tokens as whole words case-insensitively, collapse
separators, collapse whitespace, trim. -/
def cleanMovieTitle (raw : String) : String :=
  let cs := stripWs raw.data
  let cs := stripExtension cs
  let cs := stripBracketGroups cs
  let cs := subTokens (["1080p", "720p", "2160p"].map String.data) false cs
  let cs := subTokens (["x264", "x265", "h264", "h265"].map String.data) false cs
  let cs := subTokens (["AAC", "DTS"].map String.data) false cs
  let cs := collapseSeps cs
  let cs := collapseWs cs
  String.mk (stripWs cs)

/-- Abstract remote endpoints of the Metadata Client: each field models
`_request` for one endpoint together with that operation's payload-to-
result mapping (first search hit, crew extraction, season-count parsing),
which never touches the cache tiers. -/
structure Remote where
  searchMovie : String → Option SearchHit
  searchTv : String → Option SearchHit
  movieDetails : Int → Option ShowDetails
  tvDetails : Int → Option ShowDetails
  tvSeasonCount : Int → Option Int
  episodeDetails : Int × Int × Int → Option EpisodeDetails

/-- The cache state of one `TMDBService`: five in-process dictionaries
(valid for one run) and five persistent SQLite tables (valid across
runs), sharing key spaces. -/
structure ServiceState where
  memMovieSearch : List (String × Option SearchHit) := []
  memTvSearch : List (String × Option SearchHit) := []
  memMovieDetails : List (Int × Option ShowDetails) := []
  memTvDetails : List (Int × Option ShowDetails) := []
  memEpisode : List ((Int × Int × Int) × Option EpisodeDetails) := []
  persistMovieSearch : List (String × Option SearchHit) := []
  persistTvSearch : List (String × Option SearchHit) := []
  persistMovieDetails : List (Int × Option ShowDetails) := []
  persistTvDetails : List (Int × Option ShowDetails) := []
  persistEpisode : List ((Int × Int × Int) × Option EpisodeDetails) := []

/-- Mirror of `TMDBService.search_movie`: two-tier fetch keyed by the
cleaned title. -/
def searchMovie (r : Remote) (st : ServiceState) (title : String) :
    Option SearchHit × ServiceState × Nat :=
  let key := cleanMovieTitle title
  let out := twoTierFetch (r.searchMovie key) st.memMovieSearch st.persistMovieSearch key
  (out.1, { st with memMovieSearch := out.2.1, persistMovieSearch := out.2.2.1 }, out.2.2.2)

/-- Mirror of `TMDBService.search_tv`. -/
def searchTv (r : Remote) (st : ServiceState) (title : String) :
    Option SearchHit × ServiceState × Nat :=
  let key := cleanMovieTitle title
  let out := twoTierFetch (r.searchTv key) st.memTvSearch st.persistTvSearch key
  (out.1, { st with memTvSearch := out.2.1, persistTvSearch := out.2.2.1 }, out.2.2.2)

/-- Mirror of `TMDBService.get_movie_details`. -/
def getMovieDetails (r : Remote) (st : ServiceState) (movieId : Int) :
    Option ShowDetails × ServiceState × Nat :=
  let out := twoTierFetch (r.movieDetails movieId) st.memMovieDetails
    st.persistMovieDetails movieId
  (out.1, { st with memMovieDetails := out.2.1, persistMovieDetails := out.2.2.1 },
    out.2.2.2)

/-- Mirror of `TMDBService.get_tv_details`. -/
def getTvDetails (r : Remote) (st : ServiceState) (tvId : Int) :
    Option ShowDetails × ServiceState × Nat :=
  let out := twoTierFetch (r.tvDetails tvId) st.memTvDetails st.persistTvDetails tvId
  (out.1, { st with memTvDetails := out.2.1, persistTvDetails := out.2.2.1 }, out.2.2.2)

/-- Mirror of `TMDBService.get_tv_episode_details`, keyed by the
`(tv_id, season, episode)` triple. -/
def getTvEpisodeDetails (r : Remote) (st : ServiceState) (key : Int × Int × Int) :
    Option EpisodeDetails × ServiceState × Nat :=
  let out := twoTierFetch (r.episodeDetails key) st.memEpisode st.persistEpisode key
  (out.1, { st with memEpisode := out.2.1, persistEpisode := out.2.2.1 }, out.2.2.2)

/-- Mirror of `TMDBService.get_tv_season_count`: the body calls
`_request` directly and touches neither cache tier — every invocation is
a remote request. -/
def getTvSeasonCount (r : Remote) (st : ServiceState) (tvId : Int) :
    Option Int × ServiceState × Nat :=
  (r.tvSeasonCount tvId, st, 1)

/-- A process restart: the in-process dictionaries are lost, the
persistent tables survive. -/
def restart (st : ServiceState) : ServiceState :=
  { st with
    memMovieSearch := [],
    memTvSearch := [],
    memMovieDetails := [],
    memTvDetails := [],
    memEpisode := [] }

end Service

namespace Witness

open Enricher Driver

/-- A deterministic TMDB oracle answering every TV endpoint, used for
concrete runs of the enricher. -/
def animeOracle : Tmdb where
  searchMovie := fun _ => .ok none
  getMovieDetails := fun _ => .ok none
  searchTv := fun _ => .ok (some { id := some 7 })
  getTvDetails := fun _ => .ok (some { title := some "Show", director := some "D" })
  getTvSeasonCount := fun _ => .ok (some 5)
  getTvEpisodeDetails := fun _ _ _ =>
    .ok (some { episode_title := some "Ep", runtime := some 52 })

/-- A freshly scanned fansub-named episode file (anime cues present). -/
def animeEpisode : Media :=
  { file_path := "/tv/[HorribleSubs] Show/Season 1/[HorribleSubs] Show S01E01.mkv",
    file_name := "[HorribleSubs] Show S01E01.mkv",
    file_size_mb := 1, duration_seconds := 1, file_modified_time := some 100 }

/-- A TMDB oracle answering the movie endpoints. -/
def movieOracle : Tmdb where
  searchMovie := fun _ => .ok (some { id := some 1 })
  getMovieDetails := fun _ =>
    .ok (some { title := some "Inception", release_date := some "2010-07-16",
                runtime := some 148 })
  searchTv := fun _ => .ok none
  getTvDetails := fun _ => .ok none
  getTvSeasonCount := fun _ => .ok none
  getTvEpisodeDetails := fun _ _ _ => .ok none

/-- A freshly scanned movie file without anime cues. -/
def movieFile : Media :=
  { file_path := "/movies/Inception.2010.1080p.mkv",
    file_name := "Inception.2010.1080p.mkv",
    file_size_mb := 1, duration_seconds := 1, file_modified_time := some 100 }

/-- A TMDB oracle whose season count is absent (unknown), for the
season-guard claim. -/
def seasonFreeOracle : Tmdb where
  searchMovie := fun _ => .ok none
  getMovieDetails := fun _ => .ok none
  searchTv := fun _ => .ok (some { id := some 9 })
  getTvDetails := fun _ => .ok (some { title := some "Dark" })
  getTvSeasonCount := fun _ => .ok none
  getTvEpisodeDetails := fun _ _ _ =>
    .ok (some { episode_title := some "Secrets", air_date := some "2017-12-01" })

/-- A plain TV episode file without anime cues. -/
def tvFile : Media :=
  { file_path := "/tv/Dark/Season 1/Dark S01E02.mkv",
    file_name := "Dark S01E02.mkv",
    file_size_mb := 1, duration_seconds := 1, file_modified_time := some 100 }

/-- An existing stored record carrying enriched metadata. -/
def cachedRecord : Media :=
  { file_path := "/m/A.mkv", file_name := "A.mkv", file_size_mb := 50,
    duration_seconds := 100, resolution := some "1280x720",
    title := some "Cached Title", category := some "movie",
    director := some "Cached Director", file_modified_time := some 100,
    last_scanned := some 1 }

/-- A fresh scan of the same path whose modification time moved by
`0.0005` seconds — within the `0.001` tolerance. -/
def freshScan : Media :=
  { file_path := "/m/A.mkv", file_name := "A.mkv", file_size_mb := 100,
    duration_seconds := 1200, file_modified_time := some (100 + 1/2000) }

/-- A fresh scan whose modification time changed from `100.0` to
`200.0`. -/
def changedScan : Media :=
  { file_path := "/m/A.mkv", file_name := "A.mkv", file_size_mb := 100,
    duration_seconds := 1200, file_modified_time := some 200 }

/-- Driver environment with a healthy store containing `cachedRecord` and
a no-op enricher. -/
def reuseEnv : Env :=
  { lookup := fun _ => some cachedRecord, enrichFn := fun m => (m, none) }

/-- The enrichment failure of the repository's own test
(`FailingEnricher`, `ValueError("enrichment exploded")`). -/
def boomExc : PyExc :=
  { msg := "enrichment exploded", loc := "main.py:109 in _process_and_upsert_media" }

/-- A `DatabaseError` as produced by `DatabaseManager._execute`. -/
def dbExc : PyExc :=
  { isDb := true, msg := "Database query failed: disk I/O error",
    loc := "database.py:118 in _execute" }

/-- Environment whose enricher raises on every record (healthy store,
empty table). -/
def enrichBoomEnv : Env :=
  { lookup := fun _ => none, enrichFn := fun m => (m, some boomExc) }

/-- Environment where both the main write and the error handler's
best-effort write raise `DatabaseError`. -/
def doubleDbEnv : Env :=
  { lookup := fun _ => none, enrichFn := fun m => (m, none),
    write1Exc := some dbExc, write2Exc := some dbExc }

/-- Environment driving the real (modelled) enricher against the movie
oracle over an empty store. -/
def realMovieEnv : Env :=
  { lookup := fun _ => none, enrichFn := realEnrichFn movieOracle }

/-- A fresh service cache state (new database, first run). -/
def emptyService : Service.ServiceState := {}

/-- Remote endpoints answering the season-count endpoint. -/
def seasonRemote : Service.Remote where
  searchMovie := fun _ => none
  searchTv := fun _ => none
  movieDetails := fun _ => none
  tvDetails := fun _ => none
  tvSeasonCount := fun _ => some 3
  episodeDetails := fun _ => none

/-- Remote endpoints answering the movie-search endpoint. -/
def movieRemote : Service.Remote where
  searchMovie := fun _ => some { id := some 1, title := some "Inception" }
  searchTv := fun _ => none
  movieDetails := fun _ => none
  tvDetails := fun _ => none
  tvSeasonCount := fun _ => none
  episodeDetails := fun _ => none

end Witness

end CineBox

namespace CineBox

open Text Categorizer Enricher

/-- Helper restating `categorize` as a single category assignment; shared by
several proofs below. -/
theorem categorize_eq (m : Media) :
    categorize m =
      { m with category :=
          if m.category = some "error" then m.category
          else if isAnime m then some "anime"
          else if m.season_number.isSome && m.episode_number.isSome then some "tv"
          else if hasMovieMetadata m then some "movie"
          else some "others" } := by
  unfold categorize
  split_ifs <;> rfl

/-- C4: `categorize` applies the ordered first-match-wins decision — an
existing `"error"` category is terminal and the record is returned
unchanged; else the anime test yields `"anime"`; else non-null season and
episode numbers yield `"tv"`; else any non-null field among title, release
date, runtime, director, writers, producers and external rating yields
`"movie"`; else `"others"`.  The equation shape shows that only the
`category` field is ever written, and `categorize` is a total Lean
function, so it cannot raise. -/
theorem C4_categorize_ordered_first_match (m : Media) :
    categorize m =
      { m with category :=
          if m.category = some "error" then m.category
          else if isAnime m = true then some "anime"
          else if m.season_number ≠ none ∧ m.episode_number ≠ none then some "tv"
          else if m.title ≠ none ∨ m.release_date ≠ none ∨ m.runtime_minutes ≠ none ∨
              m.director ≠ none ∨ m.writers ≠ none ∨ m.producers ≠ none ∨
              m.imdb_rating ≠ none then some "movie"
          else some "others" } ∧
    (m.category = some "error" → categorize m = m) := by
  constructor
  · rw [categorize_eq]
    have h2 : ((m.season_number.isSome && m.episode_number.isSome) = true) ↔
        (m.season_number ≠ none ∧ m.episode_number ≠ none) := by
      simp [Option.isSome_iff_ne_none]
    have h3 : (hasMovieMetadata m = true) ↔
        (m.title ≠ none ∨ m.release_date ≠ none ∨ m.runtime_minutes ≠ none ∨
          m.director ≠ none ∨ m.writers ≠ none ∨ m.producers ≠ none ∨
          m.imdb_rating ≠ none) := by
      simp [hasMovieMetadata, Option.isSome_iff_ne_none]
      tauto
    split_ifs <;> first | rfl | simp_all
  · intro h
    unfold categorize
    rw [if_pos h]

/-- Dropping while a predicate holds skips over a block on which it holds
everywhere. -/
theorem dropWhile_append_of_all {p : Char → Bool} (ds l : List Char)
    (h : ∀ c ∈ ds, p c = true) : (ds ++ l).dropWhile p = l.dropWhile p := by
  induction ds with
  | nil => rfl
  | cons c cs ih =>
      have hc : p c = true := h c (by simp)
      simp only [List.cons_append, List.dropWhile_cons, hc, if_true]
      exact ih fun x hx => h x (by simp [hx])

/-- A suffix search succeeds exactly when some suffix satisfies the
positional matcher. -/
theorem anySuffix_iff (p : List Char → Bool) (l : List Char) :
    Text.anySuffix p l = true ↔ ∃ pre suf, l = pre ++ suf ∧ p suf = true := by
  induction l with
  | nil =>
      simp only [Text.anySuffix]
      constructor
      · intro h
        exact ⟨[], [], rfl, h⟩
      · rintro ⟨pre, suf, hl, hp⟩
        rcases List.append_eq_nil.mp hl.symm with ⟨h1, h2⟩
        rw [h2] at hp
        exact hp
  | cons c rest ih =>
      simp only [Text.anySuffix, Bool.or_eq_true]
      constructor
      · rintro (h | h)
        · exact ⟨[], c :: rest, rfl, h⟩
        · obtain ⟨pre, suf, hl, hp⟩ := ih.mp h
          exact ⟨c :: pre, suf, by simp [hl], hp⟩
      · rintro ⟨pre, suf, hl, hp⟩
        cases pre with
        | nil =>
            left
            simp only [List.nil_append] at hl
            rw [← hl] at hp
            exact hp
        | cons x xs =>
            right
            simp only [List.cons_append, List.cons.injEq] at hl
            exact ih.mpr ⟨xs, suf, hl.2, hp⟩

/-- Unfolding of `seAt` on a list with at least two elements. -/
theorem seAt_cons (s d0 : Char) (rest0 : List Char) :
    seAt (s :: d0 :: rest0) =
      ((s == 'S' || s == 's') &&
        (Text.isDigitChar d0 &&
          (match (d0 :: rest0).dropWhile Text.isDigitChar with
           | e :: d :: _ => (e == 'E' || e == 'e') && Text.isDigitChar d
           | _ => false))) := rfl

/-- The positional `S\d+E\d+` matcher succeeds exactly on lists that start
with an `S`, a nonempty digit run, an `E` and a digit. -/
theorem seAt_iff (cs : List Char) :
    seAt cs = true ↔ ∃ ds post s e d, cs = s :: (ds ++ e :: d :: post) ∧
      (s = 'S' ∨ s = 's') ∧ ds ≠ [] ∧ (∀ c ∈ ds, Text.isDigitChar c = true) ∧
      (e = 'E' ∨ e = 'e') ∧ Text.isDigitChar d = true := by
  constructor
  · intro h
    cases cs with
    | nil => simp [seAt] at h
    | cons s rest =>
      cases rest with
      | nil => simp [seAt] at h
      | cons d0 rest0 =>
        rcases hdw : (d0 :: rest0).dropWhile Text.isDigitChar with _ | ⟨e, etail⟩
        · rw [seAt_cons, hdw] at h
          simp at h
        · cases etail with
          | nil =>
              rw [seAt_cons, hdw] at h
              simp at h
          | cons d tail2 =>
              rw [seAt_cons, hdw] at h
              simp only [Bool.and_eq_true, Bool.or_eq_true, beq_iff_eq] at h
              obtain ⟨hs, hd0, he, hd⟩ := h
              refine ⟨(d0 :: rest0).takeWhile Text.isDigitChar, tail2, s, e, d, ?_, hs, ?_, ?_, he, hd⟩
              · rw [← hdw, List.takeWhile_append_dropWhile]
              · rw [List.takeWhile_cons, if_pos hd0]
                simp
              · intro c hc
                exact List.mem_takeWhile_imp hc
  · rintro ⟨ds, post, s, e, d, hcs, hs, hne, hds, he, hd⟩
    subst hcs
    cases ds with
    | nil => exact absurd rfl hne
    | cons d0 ds0 =>
        have hd0 : Text.isDigitChar d0 = true := hds d0 (by simp)
        have hdig : ∀ c ∈ ds0, Text.isDigitChar c = true := fun c hc => hds c (by simp [hc])
        have hE : Text.isDigitChar e = false := by
          rcases he with he | he <;> rw [he] <;> decide
        have hdw : (ds0 ++ e :: d :: post).dropWhile Text.isDigitChar = e :: d :: post := by
          rw [dropWhile_append_of_all _ _ hdig, List.dropWhile_cons, hE]
          simp
        have hsb : (s == 'S' || s == 's') = true := by
          rcases hs with h | h <;> simp [h]
        have heb : (e == 'E' || e == 'e') = true := by
          rcases he with h | h <;> simp [h]
        simp only [List.cons_append]
        rw [seAt_cons]
        simp [List.dropWhile_cons, hd0, hdw, hsb, heb, hd]

/-- C5 counterexample: the filename `"Show 1x02.mkv"` matches the
1–2-digit `x` 1–2-digit pattern (its season/episode extraction succeeds on
that pattern), yet `_is_tv_episode` classifies it as a non-episode, so the
claimed "if and only if" fails: the classifier tests only `S\d+E\d+` and
the file takes the movie path. -/
theorem C5_counterexample_x_pattern_not_classified :
    (searchCap xCapAt ("Show 1x02.mkv").data).isSome = true ∧
      isTvEpisode "Show 1x02.mkv" = false := ⟨rfl, rfl⟩

/-- C5 (amended): the Enrichment Engine classifies a filename as a TV
episode (taking the TV path in `enrich`) if and only if it matches,
case-insensitively, the `S<digits>E<digits>` pattern; the
`<1-2 digits>x<1-2 digits>` pattern plays no role in classification and is
only used later for season/episode extraction. -/
theorem C5_tv_classification_iff_se_pattern (f : String) :
    isTvEpisode f = true ↔ SEPattern f := by
  unfold isTvEpisode SEPattern
  rw [anySuffix_iff]
  constructor
  · rintro ⟨pre, suf, hl, hp⟩
    obtain ⟨ds, post, s, e, d, hsuf, hs, hne, hds, he, hd⟩ := (seAt_iff suf).mp hp
    exact ⟨pre, ds, post, s, e, d, by rw [hl, hsuf], hs, hne, hds, he, hd⟩
  · rintro ⟨pre, ds, post, s, e, d, hdata, hs, hne, hds, he, hd⟩
    exact ⟨pre, _, hdata,
      (seAt_iff _).mpr ⟨ds, post, s, e, d, rfl, hs, hne, hds, he, hd⟩⟩

/-- A record raised out of the movie enrichment path is the unmodified
input record. -/
theorem enrichMovie_error_eq (t : Tmdb) (m : Media) (ts : String) (mp : Media) (e : PyExc)
    (h : enrichMovie t m ts = .error (mp, e)) : mp = m := by
  unfold enrichMovie at h
  repeat' split at h
  all_goals try exact Except.noConfusion h
  all_goals (injection h with h; injection h with h1 h2; exact h1.symm)

/-- The movie enrichment path never writes the episodic, category or error
fields. -/
theorem enrichMovie_ok_preserves (t : Tmdb) (m : Media) (ts : String) (m1 : Media)
    (h : enrichMovie t m ts = .ok m1) :
    m1.season_number = m.season_number ∧ m1.episode_number = m.episode_number ∧
    m1.category = m.category ∧ m1.error_message = m.error_message ∧
    m1.error_location = m.error_location := by
  unfold enrichMovie at h
  repeat' split at h
  all_goals try exact Except.noConfusion h
  all_goals (injection h with h; subst h; exact ⟨rfl, rfl, rfl, rfl, rfl⟩)

/-- A record raised out of the TV enrichment path keeps its episodic,
category and error fields (only show-level descriptive fields may have
been copied before the raise). -/
theorem enrichTv_error_preserves (t : Tmdb) (m : Media) (ts : String) (mp : Media) (e : PyExc)
    (h : enrichTv t m ts = .error (mp, e)) :
    mp.season_number = m.season_number ∧ mp.episode_number = m.episode_number ∧
    mp.category = m.category ∧ mp.error_message = m.error_message ∧
    mp.error_location = m.error_location := by
  unfold enrichTv at h
  repeat' split at h
  all_goals try exact Except.noConfusion h
  all_goals (injection h with h; injection h with h1 h2; subst h1; exact ⟨rfl, rfl, rfl, rfl, rfl⟩)

/-- The TV enrichment path keeps category and error fields, and either
leaves both episodic numbers untouched or sets both. -/
theorem enrichTv_ok_cases (t : Tmdb) (m : Media) (ts : String) (m1 : Media)
    (h : enrichTv t m ts = .ok m1) :
    m1.category = m.category ∧ m1.error_message = m.error_message ∧
    m1.error_location = m.error_location ∧
    ((m1.season_number = m.season_number ∧ m1.episode_number = m.episode_number) ∨
      (∃ s ep, m1.season_number = some s ∧ m1.episode_number = some ep)) := by
  unfold enrichTv at h
  repeat' split at h
  all_goals try exact Except.noConfusion h
  all_goals (injection h with h; subst h)
  all_goals first
    | exact ⟨rfl, rfl, rfl, Or.inl ⟨rfl, rfl⟩⟩
    | exact ⟨rfl, rfl, rfl, Or.inr ⟨_, _, rfl, rfl⟩⟩

/-- Case split for `enrich`: either some service call raised and the
record is in error state with its episodic numbers untouched, or no call
raised, the error channel is clear, the category is unchanged and the
episodic numbers are untouched or both set. -/
theorem enrich_cases (t : Tmdb) (m0 : Media) :
    ((enrich t m0).category = some "error" ∧
      (∃ e : PyExc, (enrich t m0).error_message = some e.msg ∧
        (enrich t m0).error_location = some e.loc) ∧
      (enrich t m0).season_number = m0.season_number ∧
      (enrich t m0).episode_number = m0.episode_number) ∨
    ((enrich t m0).category = m0.category ∧
      (enrich t m0).error_message = none ∧
      (enrich t m0).error_location = none ∧
      (((enrich t m0).season_number = m0.season_number ∧
        (enrich t m0).episode_number = m0.episode_number) ∨
       (∃ s ep, (enrich t m0).season_number = some s ∧
         (enrich t m0).episode_number = some ep))) := by
  unfold enrich
  dsimp only
  split
  case _ m1 heq =>
    right
    split at heq
    · obtain ⟨hc, hm, hl, hrest⟩ := enrichTv_ok_cases _ _ _ _ heq
      exact ⟨hc, hm, hl, hrest⟩
    · obtain ⟨h1, h2, h3, h4, h5⟩ := enrichMovie_ok_preserves _ _ _ _ heq
      exact ⟨h3, h4, h5, Or.inl ⟨h1, h2⟩⟩
  case _ mp e heq =>
    left
    refine ⟨rfl, ⟨e, rfl, rfl⟩, ?_, ?_⟩
    · split at heq
      · exact (enrichTv_error_preserves _ _ _ _ _ heq).1
      · have hm := enrichMovie_error_eq _ _ _ _ _ heq
        subst hm
        rfl
    · split at heq
      · exact (enrichTv_error_preserves _ _ _ _ _ heq).2.1
      · have hm := enrichMovie_error_eq _ _ _ _ _ heq
        subst hm
        rfl

/-- `categorize` writes no field other than `category`. -/
theorem categorize_preserves_fields (x : Media) :
    (categorize x).season_number = x.season_number ∧
    (categorize x).episode_number = x.episode_number ∧
    (categorize x).error_message = x.error_message ∧
    (categorize x).error_location = x.error_location := by
  rw [categorize_eq]
  exact ⟨rfl, rfl, rfl, rfl⟩

/-- Only the branch guarded by both episodic numbers being present can
produce the `"tv"` category. -/
theorem categorize_tv_imp (x : Media) (h : (categorize x).category = some "tv") :
    x.season_number.isSome = true ∧ x.episode_number.isSome = true := by
  rw [categorize_eq] at h
  simp only at h
  split_ifs at h <;> simp_all

/-- `categorize` cannot introduce the `"error"` category. -/
theorem categorize_nonerror (x : Media) (h : x.category ≠ some "error") :
    (categorize x).category ≠ some "error" := by
  rw [categorize_eq]
  simp only
  split_ifs <;> simp_all

/-- An `"error"` record passes through `categorize` unchanged. -/
theorem categorize_error_keeps (x : Media) (h : x.category = some "error") :
    categorize x = x := by
  unfold categorize
  rw [if_pos h]

/-- The category computed by `categorize`, as a bare conditional. -/
theorem categorize_category_eq (x : Media) :
    (categorize x).category =
      if x.category = some "error" then x.category
      else if isAnime x then some "anime"
      else if x.season_number.isSome && x.episode_number.isSome then some "tv"
      else if hasMovieMetadata x then some "movie"
      else some "others" := by
  rw [categorize_eq]

/-- C6 counterexample: a freshly scanned fansub-named file
`"[HorribleSubs] Show S01E01.mkv"` is TV-enriched (season and episode get
set) and then categorized `"anime"` because of the `horriblesubs` keyword,
so a record with `category ≠ "tv"` carries non-null `season_number` and
`episode_number`, contradicting the claim. -/
theorem C6_counterexample_anime_with_episode :
    (categorize (enrich Witness.animeOracle Witness.animeEpisode)).category = some "anime" ∧
    (categorize (enrich Witness.animeOracle Witness.animeEpisode)).season_number = some 1 ∧
    (categorize (enrich Witness.animeOracle Witness.animeEpisode)).episode_number = some 1 ∧
    Witness.animeEpisode.season_number = none ∧
    Witness.animeEpisode.episode_number = none := by
  refine ⟨?_, ?_, ?_, rfl, rfl⟩ <;> rfl

/-- C6 (amended): for a freshly scanned record (episodic numbers null,
category not `"error"`) run through enrich-then-categorize, `"tv"` implies
both episodic numbers are non-null; and a category that is neither `"tv"`
nor `"anime"` implies both are null.  (An `"anime"` record may carry
episodic numbers, as the counterexample shows.) -/
theorem C6_tv_episode_fields (t : Tmdb) (m0 : Media)
    (h1 : m0.season_number = none) (h2 : m0.episode_number = none)
    (h3 : m0.category ≠ some "error") :
    ((categorize (enrich t m0)).category = some "tv" →
      (categorize (enrich t m0)).season_number ≠ none ∧
      (categorize (enrich t m0)).episode_number ≠ none) ∧
    ((categorize (enrich t m0)).category ≠ some "tv" →
      (categorize (enrich t m0)).category ≠ some "anime" →
      (categorize (enrich t m0)).season_number = none ∧
      (categorize (enrich t m0)).episode_number = none) := by
  obtain ⟨hps, hpe, _, _⟩ := categorize_preserves_fields (enrich t m0)
  constructor
  · intro htv
    obtain ⟨hs, he⟩ := categorize_tv_imp _ htv
    constructor
    · rw [hps]
      exact Option.ne_none_iff_isSome.mpr hs
    · rw [hpe]
      exact Option.ne_none_iff_isSome.mpr he
  · intro hnt hna
    rcases enrich_cases t m0 with ⟨hc, _, hs, he⟩ | ⟨hc, _, _, hrest⟩
    · exact ⟨by rw [hps, hs, h1], by rw [hpe, he, h2]⟩
    · rcases hrest with ⟨hs, he⟩ | ⟨s, ep, hs, he⟩
      · exact ⟨by rw [hps, hs, h1], by rw [hpe, he, h2]⟩
      · exfalso
        have hxc : (enrich t m0).category ≠ some "error" := by
          rw [hc]
          exact h3
        have hcat := categorize_category_eq (enrich t m0)
        rw [if_neg hxc] at hcat
        by_cases ha : isAnime (enrich t m0)
        · rw [if_pos ha] at hcat
          exact hna hcat
        · rw [if_neg ha] at hcat
          have hb : ((enrich t m0).season_number.isSome &&
              (enrich t m0).episode_number.isSome) = true := by
            rw [hs, he]
            rfl
          rw [if_pos hb] at hcat
          exact hnt hcat

/-- C6 witness: a plain movie file run through the pipeline satisfies the
amended invariant's hypotheses and its non-TV, non-anime record carries
null episodic numbers. -/
theorem C6_witness :
    Witness.movieFile.season_number = none ∧
    Witness.movieFile.episode_number = none ∧
    Witness.movieFile.category ≠ some "error" ∧
    ((categorize (enrich Witness.movieOracle Witness.movieFile)).category ≠ some "tv" →
      (categorize (enrich Witness.movieOracle Witness.movieFile)).category ≠ some "anime" →
      (categorize (enrich Witness.movieOracle Witness.movieFile)).season_number = none ∧
      (categorize (enrich Witness.movieOracle Witness.movieFile)).episode_number = none) :=
  ⟨rfl, rfl, by decide,
    (C6_tv_episode_fields Witness.movieOracle Witness.movieFile rfl rfl (by decide)).2⟩

/-- C10: the season-bounds guard of `_enrich_tv` does not abort when the
season count is absent — enrichment proceeds through show details to
episode details; it aborts (returning the record unenriched) exactly when
a count is known and the extracted season strictly exceeds it. -/
theorem C10_season_guard (t : Tmdb) (m : Media) (ts : String) (hit : SearchHit)
    (tvId season episode : Int)
    (hsr : t.searchTv ts = .ok (some hit)) (hid : hit.id = some tvId)
    (hse : extractSeasonEpisode m = (some season, some episode)) :
    (∀ sd ed, t.getTvSeasonCount tvId = .ok none → t.getTvDetails tvId = .ok sd →
      t.getTvEpisodeDetails tvId season episode = .ok (some ed) →
      ∃ m1, enrichTv t m ts = .ok m1 ∧ m1.season_number = some season ∧
        m1.episode_number = some episode ∧ m1.episode_title = ed.episode_title) ∧
    (∀ c, t.getTvSeasonCount tvId = .ok (some c) → season > c →
      enrichTv t m ts = .ok m) ∧
    (∀ c sd ed, t.getTvSeasonCount tvId = .ok (some c) → season ≤ c →
      t.getTvDetails tvId = .ok sd →
      t.getTvEpisodeDetails tvId season episode = .ok (some ed) →
      ∃ m1, enrichTv t m ts = .ok m1 ∧ m1.season_number = some season ∧
        m1.episode_number = some episode) := by
  refine ⟨?_, ?_, ?_⟩
  · intro sd ed hcnt hsd hed
    rw [enrichTv.eq_def, hsr]
    simp only [hid, hse, hcnt, hsd, hed]
    cases sd <;> exact ⟨_, rfl, rfl, rfl, rfl⟩
  · intro c hcnt hgt
    rw [enrichTv.eq_def, hsr]
    simp only [hid, hse, hcnt]
    simp [hgt]
  · intro c sd ed hcnt hle hsd hed
    rw [enrichTv.eq_def, hsr]
    simp only [hid, hse, hcnt, hsd, hed]
    have hng : ¬ season > c := not_lt.mpr hle
    simp only [hng, decide_eq_true_eq, if_false, decide_eq_false hng]
    cases sd <;> exact ⟨_, rfl, rfl, rfl⟩

/-- C10 witness: with an absent season count the guard lets enrichment
proceed and the episode fields are populated. -/
theorem C10_witness :
    ∃ m1, enrichTv Witness.seasonFreeOracle Witness.tvFile "Dark" = .ok m1 ∧
      m1.season_number = some 1 ∧ m1.episode_number = some 2 ∧
      m1.episode_title = some "Secrets" := by
  have h := C10_season_guard Witness.seasonFreeOracle Witness.tvFile "Dark"
    { id := some 9 } 9 1 2 rfl rfl (by decide)
  exact h.1 _ _ rfl rfl rfl

end CineBox

namespace CineBox

open Driver

/-- The computable absolute value agrees with the lattice one. -/
theorem ratAbs_eq_abs (q : ℚ) : ratAbs q = |q| := by
  unfold ratAbs
  split_ifs with h
  · exact (abs_of_neg h).symm
  · exact (abs_of_nonneg (not_lt.mp h)).symm

/-- The change test succeeds exactly when both records carry a timestamp
and the absolute difference is within the `0.001` tolerance. -/
theorem isUnchanged_iff (a b : Media) :
    isUnchanged a b = true ↔ ∃ t1 t2, a.file_modified_time = some t1 ∧
      b.file_modified_time = some t2 ∧ |t1 - t2| ≤ 1/1000 := by
  rcases ha : a.file_modified_time with _ | t1 <;>
    rcases hb : b.file_modified_time with _ | t2 <;>
      simp [isUnchanged, ha, hb, ratAbs_eq_abs]

/-- The error handler performs no enrichment call. -/
theorem handleError_enrich_free (env : Env) (m : Media) (e : PyExc) (evs : List Ev) :
    Ev.enrichCall ∈ (handleError env m e evs).events ↔ Ev.enrichCall ∈ evs := by
  unfold handleError
  repeat' split
  all_goals simp

/-- The persist step performs no enrichment call. -/
theorem attemptPersist_enrich_free (env : Env) (m : Media) (evs : List Ev) :
    Ev.enrichCall ∈ (attemptPersist env m evs).events ↔ Ev.enrichCall ∈ evs := by
  unfold attemptPersist
  split
  · rw [handleError_enrich_free]
    simp
  · simp

/-- The refresh branch always performs an enrichment call. -/
theorem runEnrichPath_has_enrich (env : Env) (m : Media) (evs : List Ev) :
    Ev.enrichCall ∈ (runEnrichPath env m evs).events := by
  unfold runEnrichPath
  split
  · rw [handleError_enrich_free]
    simp
  · rw [attemptPersist_enrich_free]
    simp

/-- Read counting distributes over trace concatenation. -/
theorem countReads_append (a b : List Ev) :
    countReads (a ++ b) = countReads a + countReads b := by
  simp [countReads, List.filter_append]

/-- Write counting distributes over trace concatenation. -/
theorem countWrites_append (a b : List Ev) :
    countWrites (a ++ b) = countWrites a + countWrites b := by
  simp [countWrites, List.filter_append]

/-- The error handler performs exactly one more read and at most one more
write attempt. -/
theorem handleError_counts (env : Env) (m : Media) (e : PyExc) (evs : List Ev) :
    countReads (handleError env m e evs).events = countReads evs + 1 ∧
    countWrites (handleError env m e evs).events ≤ countWrites evs + 1 := by
  unfold handleError
  repeat' split
  all_goals constructor
  all_goals simp [countReads_append, countWrites_append, countReads, countWrites,
    List.filter, isReadEv, isWriteEv]

/-- The persist step: at most one extra read and between one and two extra
write attempts; exactly zero extra reads and one write when the main write
does not raise. -/
theorem attemptPersist_counts (env : Env) (m : Media) (evs : List Ev) :
    countReads (attemptPersist env m evs).events ≤ countReads evs + 1 ∧
    countWrites (attemptPersist env m evs).events ≤ countWrites evs + 2 ∧
    (env.write1Exc = none →
      countReads (attemptPersist env m evs).events = countReads evs ∧
      countWrites (attemptPersist env m evs).events = countWrites evs + 1) := by
  unfold attemptPersist
  split
  · rename_i e heq
    obtain ⟨hr, hw⟩ := handleError_counts env m e (evs ++ [Ev.write m])
    rw [countReads_append] at hr
    rw [countWrites_append] at hw
    have e1 : countReads [Ev.write m] = 0 := rfl
    have e2 : countWrites [Ev.write m] = 1 := rfl
    refine ⟨by omega, by omega, fun hn => ?_⟩
    rw [hn] at heq
    exact Option.noConfusion heq
  · dsimp only
    have e1 : countReads (evs ++ [Ev.write m]) = countReads evs := by
      rw [countReads_append]
      rfl
    have e2 : countWrites (evs ++ [Ev.write m]) = countWrites evs + 1 := by
      rw [countWrites_append]
      rfl
    exact ⟨by omega, by omega, fun _ => ⟨e1, e2⟩⟩

/-- The refresh branch: at most one extra read and two extra write
attempts; exactly zero extra reads and one write in a clean run. -/
theorem runEnrichPath_counts (env : Env) (m : Media) (evs : List Ev) :
    countReads (runEnrichPath env m evs).events ≤ countReads evs + 1 ∧
    countWrites (runEnrichPath env m evs).events ≤ countWrites evs + 2 ∧
    ((env.enrichFn m).2 = none → env.write1Exc = none →
      countReads (runEnrichPath env m evs).events = countReads evs ∧
      countWrites (runEnrichPath env m evs).events = countWrites evs + 1) := by
  have eR : countReads (evs ++ [Ev.enrichCall]) = countReads evs := by
    rw [countReads_append]
    rfl
  have eW : countWrites (evs ++ [Ev.enrichCall]) = countWrites evs := by
    rw [countWrites_append]
    rfl
  unfold runEnrichPath
  split
  · rename_i m1 e heq
    obtain ⟨hr, hw⟩ := handleError_counts env m1 e (evs ++ [Ev.enrichCall])
    rw [eR] at hr
    rw [eW] at hw
    refine ⟨by omega, by omega, fun hn _ => ?_⟩
    rw [heq] at hn
    exact Option.noConfusion hn
  · rename_i m1 heq
    obtain ⟨hr, hw, hclean⟩ := attemptPersist_counts env (Categorizer.categorize m1)
      (evs ++ [Ev.enrichCall])
    rw [eR] at hr
    rw [eW] at hw
    refine ⟨by omega, by omega, fun _ hn => ?_⟩
    obtain ⟨c1, c2⟩ := hclean hn
    rw [eR] at c1
    rw [eW] at c2
    exact ⟨c1, c2⟩

/-- What the error handler persists on a healthy store: the record marked
with the exception's message and location. -/
theorem handleError_clean (env : Env) (m : Media) (e : PyExc) (evs : List Ev)
    (h2 : env.read2Exc = none) (h3 : env.write2Exc = none) :
    (handleError env m e evs).persisted =
      some { m with
        category := some "error",
        error_message := some e.msg,
        error_location := some e.loc } := by
  simp [handleError, h2, h3]

/-- Anything persisted by the error handler is the error-marked record. -/
theorem handleError_persisted (env : Env) (m : Media) (e : PyExc) (evs : List Ev)
    (r : Media) (h : (handleError env m e evs).persisted = some r) :
    r = { m with
      category := some "error",
      error_message := some e.msg,
      error_location := some e.loc } := by
  unfold handleError at h
  repeat' split at h
  all_goals first
    | exact Option.noConfusion h
    | (injection h with h; exact h.symm)

/-- Anything persisted by the persist step is either the intended record
or the error-marked record of a raised write. -/
theorem attemptPersist_persisted (env : Env) (m : Media) (evs : List Ev)
    (r : Media) (h : (attemptPersist env m evs).persisted = some r) :
    r = m ∨ ∃ e, env.write1Exc = some e ∧
      r = { m with
        category := some "error",
        error_message := some e.msg,
        error_location := some e.loc } := by
  unfold attemptPersist at h
  split at h
  · rename_i e heq
    exact Or.inr ⟨e, heq, handleError_persisted _ _ _ _ _ h⟩
  · injection h with h
    exact Or.inl h.symm

/-- The error handler never lets an exception escape when the store raises
only database errors. -/
theorem handleError_escaped (env : Env) (m : Media) (e : PyExc) (evs : List Ev)
    (h : dbOnlyEnv env) : (handleError env m e evs).escaped = none := by
  rcases hr2 : env.read2Exc with _ | e2
  · rcases hw2 : env.write2Exc with _ | e3
    · simp [handleError, hr2, hw2]
    · have hdb := h.2 e3 hw2
      simp [handleError, hr2, hw2, hdb]
  · have hdb := h.1 e2 hr2
    simp [handleError, hr2, hdb]

/-- The persist step never lets an exception escape when the store raises
only database errors. -/
theorem attemptPersist_escaped (env : Env) (m : Media) (evs : List Ev)
    (h : dbOnlyEnv env) : (attemptPersist env m evs).escaped = none := by
  unfold attemptPersist
  split
  · exact handleError_escaped _ _ _ _ h
  · rfl

/-- The refresh branch never lets an exception escape when the store
raises only database errors. -/
theorem runEnrichPath_escaped (env : Env) (m : Media) (evs : List Ev)
    (h : dbOnlyEnv env) : (runEnrichPath env m evs).escaped = none := by
  unfold runEnrichPath
  split
  · exact handleError_escaped _ _ _ _ h
  · exact attemptPersist_escaped _ _ _ h

/-- The per-file step never lets an exception escape when the store raises
only database errors. -/
theorem processOne_escaped (env : Env) (m : Media) (ts : ℚ)
    (h : dbOnlyEnv env) : (processOne env m ts).escaped = none := by
  unfold processOne
  dsimp only
  split
  · exact handleError_escaped _ _ _ _ h
  · split
    · split
      · exact attemptPersist_escaped _ _ _ h
      · exact runEnrichPath_escaped _ _ _ h
    · exact runEnrichPath_escaped _ _ _ h

/-- C2: with a successful initial lookup, the Reused path (no enrichment
call) is taken exactly when an existing record is found by path and both
records carry a timestamp whose difference is within the `0.001`
tolerance; on the Reused path the carried-forward record is persisted, and
otherwise the freshly enriched-then-categorized record is persisted. -/
theorem C2_reuse_iff_unchanged (env : Env) (scanned0 : Media) (ts : ℚ)
    (hr : env.read1Exc = none) :
    ((Ev.enrichCall ∉ (processOne env scanned0 ts).events) ↔
      (∃ ex t1 t2, env.lookup scanned0.file_path = some ex ∧
        scanned0.file_modified_time = some t1 ∧ ex.file_modified_time = some t2 ∧
        |t1 - t2| ≤ 1/1000)) ∧
    (∀ ex, env.lookup scanned0.file_path = some ex → isUnchanged scanned0 ex = true →
      env.write1Exc = none →
      (processOne env scanned0 ts).persisted =
        some (carryForward { scanned0 with last_scanned := some ts } ex)) ∧
    (∀ m1, (¬ ∃ ex, env.lookup scanned0.file_path = some ex ∧
        isUnchanged scanned0 ex = true) →
      env.enrichFn { scanned0 with last_scanned := some ts } = (m1, none) →
      env.write1Exc = none →
      (processOne env scanned0 ts).persisted = some (Categorizer.categorize m1)) := by
  unfold processOne
  dsimp only
  rw [hr]
  dsimp only
  rcases hl : env.lookup scanned0.file_path with _ | ex
  · dsimp only
    refine ⟨⟨?_, ?_⟩, ?_, ?_⟩
    · intro habs
      exact absurd (runEnrichPath_has_enrich env _ [Ev.read]) habs
    · rintro ⟨ex, t1, t2, hex, _⟩
      exact Option.noConfusion hex
    · intro ex hex
      exact absurd hex (by simp)
    · intro m1 hne henr hw1
      unfold runEnrichPath
      rw [henr]
      dsimp only
      unfold attemptPersist
      rw [hw1]
  · dsimp only
    rw [show isUnchanged { scanned0 with last_scanned := some ts } ex =
      isUnchanged scanned0 ex from rfl]
    by_cases hu : isUnchanged scanned0 ex = true
    · rw [if_pos hu]
      refine ⟨⟨?_, ?_⟩, ?_, ?_⟩
      · intro _
        obtain ⟨t1, t2, h1, h2, h3⟩ := (isUnchanged_iff _ _).mp hu
        exact ⟨ex, t1, t2, rfl, h1, h2, h3⟩
      · intro _
        rw [attemptPersist_enrich_free]
        simp
      · intro ex1 hex1 hun hw1
        injection hex1 with hex1
        subst hex1
        unfold attemptPersist
        rw [hw1]
      · intro m1 hne _ _
        exact absurd ⟨ex, rfl, hu⟩ hne
    · rw [if_neg hu]
      refine ⟨⟨?_, ?_⟩, ?_, ?_⟩
      · intro habs
        exact absurd (runEnrichPath_has_enrich env _ [Ev.read]) habs
      · rintro ⟨ex1, t1, t2, hex1, h1, h2, h3⟩
        injection hex1 with hex1
        subst hex1
        exact absurd ((isUnchanged_iff _ _).mpr ⟨t1, t2, h1, h2, h3⟩) hu
      · intro ex1 hex1 hun _
        injection hex1 with hex1
        subst hex1
        exact absurd hun hu
      · intro m1 hne henr hw1
        unfold runEnrichPath
        rw [henr]
        dsimp only
        unfold attemptPersist
        rw [hw1]

/-- C2 witness: a concrete unchanged file (timestamp drift `0.0005`) takes
the Reused path and persists the carried-forward record. -/
theorem C2_witness :
    Ev.enrichCall ∉ (processOne Witness.reuseEnv Witness.freshScan 500).events ∧
    (processOne Witness.reuseEnv Witness.freshScan 500).persisted =
      some (carryForward { Witness.freshScan with last_scanned := some 500 }
        Witness.cachedRecord) := by
  have h := C2_reuse_iff_unchanged Witness.reuseEnv Witness.freshScan 500 rfl
  have hun : isUnchanged Witness.freshScan Witness.cachedRecord = true :=
    (isUnchanged_iff _ _).mpr ⟨100 + 1/2000, 100, rfl, rfl, by norm_num [abs_le]⟩
  exact ⟨h.1.mpr ⟨Witness.cachedRecord, 100 + 1/2000, 100, rfl, rfl, rfl,
      by norm_num [abs_le]⟩,
    h.2.1 Witness.cachedRecord rfl hun rfl⟩

/-- C3: on the Reused path every descriptive, episodic and error field of
the persisted record comes from the existing record, the technical fields
come from the fresh scan, and `last_scanned` is the current pass
timestamp. -/
theorem C3_carry_forward_fields (env : Env) (scanned0 ex : Media) (ts : ℚ)
    (hr : env.read1Exc = none) (hw : env.write1Exc = none)
    (hex : env.lookup scanned0.file_path = some ex)
    (hun : isUnchanged scanned0 ex = true) :
    ∃ r, (processOne env scanned0 ts).persisted = some r ∧
      r.title = ex.title ∧ r.category = ex.category ∧
      r.release_date = ex.release_date ∧ r.director = ex.director ∧
      r.writers = ex.writers ∧ r.producers = ex.producers ∧
      r.runtime_minutes = ex.runtime_minutes ∧ r.imdb_rating = ex.imdb_rating ∧
      r.poster_path = ex.poster_path ∧ r.error_message = ex.error_message ∧
      r.error_location = ex.error_location ∧ r.season_number = ex.season_number ∧
      r.episode_number = ex.episode_number ∧ r.episode_title = ex.episode_title ∧
      r.episode_air_date = ex.episode_air_date ∧
      r.file_size_mb = scanned0.file_size_mb ∧
      r.duration_seconds = scanned0.duration_seconds ∧
      r.resolution = scanned0.resolution ∧
      r.file_modified_time = scanned0.file_modified_time ∧
      r.last_scanned = some ts := by
  have hp : (processOne env scanned0 ts).persisted =
      some (carryForward { scanned0 with last_scanned := some ts } ex) := by
    unfold processOne
    dsimp only
    rw [hr]
    dsimp only
    rw [hex]
    dsimp only
    rw [show isUnchanged { scanned0 with last_scanned := some ts } ex =
      isUnchanged scanned0 ex from rfl, if_pos hun]
    unfold attemptPersist
    rw [hw]
  exact ⟨_, hp, rfl, rfl, rfl, rfl, rfl, rfl, rfl, rfl, rfl, rfl, rfl, rfl, rfl,
    rfl, rfl, rfl, rfl, rfl, rfl, rfl⟩

/-- C3 witness: the concrete unchanged file of the repository's own test
data, with every field equation instantiated. -/
theorem C3_witness :
    ∃ r, (processOne Witness.reuseEnv Witness.freshScan 500).persisted = some r ∧
      r.title = Witness.cachedRecord.title ∧
      r.category = Witness.cachedRecord.category ∧
      r.release_date = Witness.cachedRecord.release_date ∧
      r.director = Witness.cachedRecord.director ∧
      r.writers = Witness.cachedRecord.writers ∧
      r.producers = Witness.cachedRecord.producers ∧
      r.runtime_minutes = Witness.cachedRecord.runtime_minutes ∧
      r.imdb_rating = Witness.cachedRecord.imdb_rating ∧
      r.poster_path = Witness.cachedRecord.poster_path ∧
      r.error_message = Witness.cachedRecord.error_message ∧
      r.error_location = Witness.cachedRecord.error_location ∧
      r.season_number = Witness.cachedRecord.season_number ∧
      r.episode_number = Witness.cachedRecord.episode_number ∧
      r.episode_title = Witness.cachedRecord.episode_title ∧
      r.episode_air_date = Witness.cachedRecord.episode_air_date ∧
      r.file_size_mb = Witness.freshScan.file_size_mb ∧
      r.duration_seconds = Witness.freshScan.duration_seconds ∧
      r.resolution = Witness.freshScan.resolution ∧
      r.file_modified_time = Witness.freshScan.file_modified_time ∧
      r.last_scanned = some 500 :=
  C3_carry_forward_fields Witness.reuseEnv Witness.freshScan Witness.cachedRecord 500
    rfl rfl rfl
    ((isUnchanged_iff _ _).mpr ⟨100 + 1/2000, 100, rfl, rfl, by norm_num [abs_le]⟩)

/-- C8 counterexample: when enrichment raises, the error handler performs
a second lookup, so this file is processed with two storage reads (one
write), contradicting the claimed at-most-one-read bound for the failure
path. -/
theorem C8_counterexample_error_path_two_reads :
    countReads (processOne Witness.enrichBoomEnv Witness.freshScan 500).events = 2 ∧
    countWrites (processOne Witness.enrichBoomEnv Witness.freshScan 500).events = 1 ∧
    ∃ r, (processOne Witness.enrichBoomEnv Witness.freshScan 500).persisted = some r ∧
      r.category = some "error" :=
  ⟨rfl, rfl, ⟨_, rfl, rfl⟩⟩

/-- C8 (amended): each file costs at most two storage reads and two write
attempts; when no exception occurs the driver performs exactly one read
and one write. -/
theorem C8_storage_ops_bound (env : Env) (scanned0 : Media) (ts : ℚ) :
    countReads (processOne env scanned0 ts).events ≤ 2 ∧
    countWrites (processOne env scanned0 ts).events ≤ 2 ∧
    (env.read1Exc = none → env.write1Exc = none →
      (env.enrichFn { scanned0 with last_scanned := some ts }).2 = none →
      countReads (processOne env scanned0 ts).events = 1 ∧
      countWrites (processOne env scanned0 ts).events = 1) := by
  have z1 : countReads [Ev.read] = 1 := rfl
  have z2 : countWrites [Ev.read] = 0 := rfl
  unfold processOne
  dsimp only
  split
  · rename_i e heq
    obtain ⟨hr, hw⟩ :=
      handleError_counts env { scanned0 with last_scanned := some ts } e [Ev.read]
    refine ⟨by omega, by omega, fun hn _ _ => ?_⟩
    rw [hn] at heq
    exact Option.noConfusion heq
  · split
    · rename_i ex hex
      split
      · obtain ⟨hr, hw, hclean⟩ := attemptPersist_counts env
          (carryForward { scanned0 with last_scanned := some ts } ex) [Ev.read]
        refine ⟨by omega, by omega, fun _ hw1 _ => ?_⟩
        obtain ⟨c1, c2⟩ := hclean hw1
        omega
      · obtain ⟨hr, hw, hclean⟩ := runEnrichPath_counts env
          { scanned0 with last_scanned := some ts } [Ev.read]
        refine ⟨by omega, by omega, fun _ hw1 hen => ?_⟩
        obtain ⟨c1, c2⟩ := hclean hen hw1
        omega
    · obtain ⟨hr, hw, hclean⟩ := runEnrichPath_counts env
        { scanned0 with last_scanned := some ts } [Ev.read]
      refine ⟨by omega, by omega, fun _ hw1 hen => ?_⟩
      obtain ⟨c1, c2⟩ := hclean hen hw1
      omega

/-- C8 witness: a clean reuse run performs exactly one read and one
write. -/
theorem C8_witness :
    countReads (processOne Witness.reuseEnv Witness.freshScan 500).events = 1 ∧
    countWrites (processOne Witness.reuseEnv Witness.freshScan 500).events = 1 :=
  (C8_storage_ops_bound Witness.reuseEnv Witness.freshScan 500).2.2 rfl rfl rfl

/-- The record produced by marking an exception satisfies the error
invariant. -/
theorem errorMark_invariant (m : Media) (e : PyExc) :
    errorInvariant { m with
      category := some "error",
      error_message := some e.msg,
      error_location := some e.loc } := by
  constructor
  · constructor
    · intro _
      simp
    · intro _
      rfl
  · intro h
    exact absurd rfl h

/-- Carrying metadata forward transports the error invariant from the
existing record. -/
theorem carryForward_invariant (s ex : Media) (h : errorInvariant ex) :
    errorInvariant (Driver.carryForward s ex) := h

/-- The enrich-then-categorize pipeline establishes the error invariant on
any record whose category is not already `"error"`. -/
theorem pipeline_invariant (t : Enricher.Tmdb) (m : Media)
    (h : m.category ≠ some "error") :
    errorInvariant (Categorizer.categorize (Enricher.enrich t m)) := by
  rcases enrich_cases t m with ⟨hc, ⟨e, hm, hl⟩, _, _⟩ | ⟨hc, hm, hl, _⟩
  · rw [categorize_error_keeps _ hc]
    constructor
    · constructor
      · intro _
        rw [hm]
        simp
      · intro _
        exact hc
    · intro hne
      exact absurd hc hne
  · have hcne : (Enricher.enrich t m).category ≠ some "error" := by
      rw [hc]
      exact h
    obtain ⟨_, _, hpm, hpl⟩ := categorize_preserves_fields (Enricher.enrich t m)
    have hcatne := categorize_nonerror _ hcne
    constructor
    · constructor
      · intro hco
        exact absurd hco hcatne
      · intro hmsg
        rw [hpm, hm] at hmsg
        exact absurd rfl hmsg
    · intro _
      rw [hpm, hpl, hm, hl]
      exact ⟨rfl, rfl⟩

/-- C7: every record persisted by the per-file step — inserted, updated or
carried forward, on the success path or through the error handler —
satisfies `category == "error" ↔ error_message ≠ null`, with both error
fields null on non-error records; assuming the looked-up existing record
already satisfies the invariant and the scanned record is not pre-marked
as an error. -/
theorem C7_error_invariant (t : Enricher.Tmdb) (env : Env) (scanned0 : Media) (ts : ℚ)
    (henr : env.enrichFn = realEnrichFn t)
    (hex : ∀ ex, env.lookup scanned0.file_path = some ex → errorInvariant ex)
    (hcat : scanned0.category ≠ some "error") :
    ∀ r, (processOne env scanned0 ts).persisted = some r → errorInvariant r := by
  intro r hp
  unfold processOne at hp
  dsimp only at hp
  rcases h1 : env.read1Exc with _ | e
  · rw [h1] at hp
    dsimp only at hp
    rcases hl : env.lookup scanned0.file_path with _ | ex
    · rw [hl] at hp
      dsimp only at hp
      unfold runEnrichPath at hp
      rw [henr] at hp
      dsimp only [realEnrichFn] at hp
      rcases attemptPersist_persisted _ _ _ _ hp with hr | ⟨e, _, hr⟩
      · rw [hr]
        exact pipeline_invariant t _ hcat
      · rw [hr]
        exact errorMark_invariant _ _
    · rw [hl] at hp
      dsimp only at hp
      rw [show isUnchanged { scanned0 with last_scanned := some ts } ex =
        isUnchanged scanned0 ex from rfl] at hp
      by_cases hu : isUnchanged scanned0 ex = true
      · rw [if_pos hu] at hp
        rcases attemptPersist_persisted _ _ _ _ hp with hr | ⟨e, _, hr⟩
        · rw [hr]
          exact carryForward_invariant _ _ (hex ex hl)
        · rw [hr]
          exact errorMark_invariant _ _
      · rw [if_neg hu] at hp
        unfold runEnrichPath at hp
        rw [henr] at hp
        dsimp only [realEnrichFn] at hp
        rcases attemptPersist_persisted _ _ _ _ hp with hr | ⟨e, _, hr⟩
        · rw [hr]
          exact pipeline_invariant t _ hcat
        · rw [hr]
          exact errorMark_invariant _ _
  · rw [h1] at hp
    dsimp only at hp
    rw [handleError_persisted _ _ _ _ _ hp]
    exact errorMark_invariant _ _

/-- C7 witness: the record persisted for a concrete movie file over an
empty store with the real enricher satisfies the invariant. -/
theorem C7_witness :
    errorInvariant (Categorizer.categorize (Enricher.enrich Witness.movieOracle
      { Witness.movieFile with last_scanned := some 500 })) :=
  C7_error_invariant Witness.movieOracle Witness.realMovieEnv Witness.movieFile 500
    rfl (fun ex h => Option.noConfusion h) (by decide) _ rfl

/-- C9 counterexample: when the main write raises a `DatabaseError` and
the best-effort error write raises too, the exception stays contained and
the batch continues, but no record at all is persisted for the file — the
claim's "the record is persisted with category error" fails. -/
theorem C9_counterexample_double_db_fault :
    Witness.doubleDbEnv.write1Exc = some Witness.dbExc ∧
    (processOne Witness.doubleDbEnv Witness.freshScan 500).persisted = none ∧
    (processOne Witness.doubleDbEnv Witness.freshScan 500).escaped = none ∧
    (processBatch [(Witness.doubleDbEnv, Witness.freshScan),
      (Witness.enrichBoomEnv, Witness.changedScan)] 500).1.length = 2 :=
  ⟨rfl, rfl, rfl, rfl⟩

/-- On the refresh branch, a first exception (from the enricher or the
main write) with a healthy error handler leads to the error-marked record
being persisted. -/
theorem enrichPath_first_exc (env : Env) (scanned : Media) (e : PyExc)
    (h2 : env.read2Exc = none) (h3 : env.write2Exc = none)
    (hfe : enrichPathExc env scanned = some e) :
    ∃ r, (runEnrichPath env scanned [Ev.read]).persisted = some r ∧
      r.category = some "error" ∧ r.error_message = some e.msg ∧
      r.error_location = some e.loc := by
  unfold enrichPathExc at hfe
  unfold runEnrichPath
  rcases hef : env.enrichFn scanned with ⟨m1, oe⟩
  rw [hef] at hfe
  dsimp only at hfe
  rcases oe with _ | e2
  · dsimp only at hfe
    unfold attemptPersist
    rw [hfe]
    exact ⟨_, handleError_clean _ _ _ _ h2 h3, rfl, rfl, rfl⟩
  · dsimp only at hfe
    injection hfe with hfe
    subst hfe
    exact ⟨_, handleError_clean _ _ _ _ h2 h3, rfl, rfl, rfl⟩

/-- C9 (amended): the modelled `enrich` never raises; with a store that
raises only database errors no exception escapes a per-file step and the
whole batch is processed; and whenever an exception does occur in a
per-file step whose error handler runs cleanly, the record is persisted
with `category = "error"` and the exception's message and location. -/
theorem C9_error_containment :
    (∀ (t : Enricher.Tmdb) (m : Media), (realEnrichFn t m).2 = none) ∧
    (∀ (env : Env) (m : Media) (ts : ℚ), dbOnlyEnv env →
      (processOne env m ts).escaped = none) ∧
    (∀ (items : List (Env × Media)) (ts : ℚ), (∀ p ∈ items, dbOnlyEnv p.1) →
      (processBatch items ts).2 = none ∧
      (processBatch items ts).1.length = items.length) ∧
    (∀ (env : Env) (m : Media) (ts : ℚ) (e : PyExc),
      env.read2Exc = none → env.write2Exc = none →
      firstExc env { m with last_scanned := some ts } = some e →
      ∃ r, (processOne env m ts).persisted = some r ∧ r.category = some "error" ∧
        r.error_message = some e.msg ∧ r.error_location = some e.loc) := by
  refine ⟨fun _ _ => rfl, processOne_escaped, ?_, ?_⟩
  · intro items ts
    induction items with
    | nil => exact fun _ => ⟨rfl, rfl⟩
    | cons p rest ih =>
        intro h
        obtain ⟨env, m⟩ := p
        have he : (processOne env m ts).escaped = none :=
          processOne_escaped env m ts (h (env, m) (List.mem_cons_self _ _))
        have hrest := ih fun q hq => h q (List.mem_cons_of_mem _ hq)
        simp only [processBatch, he]
        exact ⟨hrest.1, by simp [hrest.2]⟩
  · intro env m ts e h2 h3 hfe
    unfold firstExc at hfe
    unfold processOne
    dsimp only at hfe ⊢
    rcases h1 : env.read1Exc with _ | e1
    · rw [h1] at hfe
      dsimp only at hfe ⊢
      rcases hl : env.lookup m.file_path with _ | ex
      · rw [hl] at hfe
        dsimp only at hfe ⊢
        exact enrichPath_first_exc env _ e h2 h3 hfe
      · rw [hl] at hfe
        dsimp only at hfe ⊢
        by_cases hu : isUnchanged { m with last_scanned := some ts } ex = true
        · rw [if_pos hu] at hfe ⊢
          unfold attemptPersist
          rw [hfe]
          exact ⟨_, handleError_clean _ _ _ _ h2 h3, rfl, rfl, rfl⟩
        · rw [if_neg hu] at hfe ⊢
          exact enrichPath_first_exc env _ e h2 h3 hfe
    · rw [h1] at hfe
      dsimp only at hfe ⊢
      injection hfe with hfe
      subst hfe
      exact ⟨_, handleError_clean _ _ _ _ h2 h3, rfl, rfl, rfl⟩

/-- C9 witness: an enricher that raises on a concrete file leads to the
error-marked record being persisted with the exception's message and
location. -/
theorem C9_witness :
    ∃ r, (processOne Witness.enrichBoomEnv Witness.freshScan 500).persisted = some r ∧
      r.category = some "error" ∧
      r.error_message = some Witness.boomExc.msg ∧
      r.error_location = some Witness.boomExc.loc :=
  C9_error_containment.2.2.2 Witness.enrichBoomEnv Witness.freshScan 500
    Witness.boomExc rfl rfl rfl

end CineBox

namespace CineBox

open Service

/-- A freshly inserted row is found. -/
theorem lookupRow_insert {κ α : Type} [DecidableEq κ] (table : List (κ × Option α))
    (key : κ) (v : Option α) : lookupRow (insertRow table key v) key = some v := by
  simp [insertRow, lookupRow]

/-- After any fetch, the in-process tier holds the returned value under
the key. -/
theorem twoTierFetch_mem_after {κ α : Type} [DecidableEq κ] (remote : Option α)
    (mem persist : List (κ × Option α)) (key : κ) :
    lookupRow (twoTierFetch remote mem persist key).2.1 key =
      some (twoTierFetch remote mem persist key).1 := by
  unfold twoTierFetch
  rcases hm : lookupRow mem key with _ | v
  · rcases hp : lookupRow persist key with _ | v
    · simp [lookupRow_insert]
    · simp [lookupRow_insert]
  · simp [hm]

/-- An in-process hit performs no remote request. -/
theorem twoTierFetch_mem_hit_zero {κ α : Type} [DecidableEq κ] (remote : Option α)
    (mem persist : List (κ × Option α)) (key : κ) (h : lookupRow mem key ≠ none) :
    (twoTierFetch remote mem persist key).2.2.2 = 0 := by
  unfold twoTierFetch
  rcases hm : lookupRow mem key with _ | v
  · exact absurd hm h
  · rfl

/-- A persistent-tier row (present or absent marker) suffices to avoid the
remote request. -/
theorem twoTierFetch_persist_hit_zero {κ α : Type} [DecidableEq κ] (remote : Option α)
    (mem persist : List (κ × Option α)) (key : κ) (h : lookupRow persist key ≠ none) :
    (twoTierFetch remote mem persist key).2.2.2 = 0 := by
  unfold twoTierFetch
  rcases hm : lookupRow mem key with _ | v
  · rcases hp : lookupRow persist key with _ | v
    · exact absurd hp h
    · rfl
  · rfl

/-- Fetching the same key twice in one process performs no remote request
the second time. -/
theorem twoTierFetch_repeat_zero {κ α : Type} [DecidableEq κ] (r1 r2 : Option α)
    (mem persist p2 : List (κ × Option α)) (key : κ) :
    (twoTierFetch r2 (twoTierFetch r1 mem persist key).2.1 p2 key).2.2.2 = 0 :=
  twoTierFetch_mem_hit_zero r2 _ p2 key (by rw [twoTierFetch_mem_after]; simp)

/-- A fetch for a key unseen by the in-process tier leaves a persistent
row behind. -/
theorem twoTierFetch_persist_after {κ α : Type} [DecidableEq κ] (remote : Option α)
    (mem persist : List (κ × Option α)) (key : κ) (h : lookupRow mem key = none) :
    lookupRow (twoTierFetch remote mem persist key).2.2.1 key ≠ none := by
  unfold twoTierFetch
  rcases hm : lookupRow mem key with _ | v
  · rcases hp : lookupRow persist key with _ | v
    · simp [lookupRow_insert]
    · simp [hp]
  · rw [h] at hm
    exact Option.noConfusion hm

/-- C1 counterexample: `get_tv_season_count` takes part in neither cache
tier — two consecutive calls for the same show id each perform a remote
request, so the claimed at-most-one-remote-call-per-key protocol does not
apply to it. -/
theorem C1_counterexample_season_count_uncached :
    (getTvSeasonCount Witness.seasonRemote Witness.emptyService 7).2.2 = 1 ∧
    (getTvSeasonCount Witness.seasonRemote
      (getTvSeasonCount Witness.seasonRemote Witness.emptyService 7).2.1 7).2.2 = 1 :=
  ⟨rfl, rfl⟩

/-- C1 (amended): the two-tier protocol holds for the five cached
operations — repeating a request in the same process performs no second
remote call; a persisted row makes the call remote-free even after a
restart; and a call for a key unseen in-process leaves a persistent row —
while `get_tv_season_count` performs a remote request on every invocation
and never touches the cache state. -/
theorem C1_two_tier_cached_ops :
    (∀ (r : Remote) (st : ServiceState) (t : String),
      (searchMovie r (searchMovie r st t).2.1 t).2.2 = 0) ∧
    (∀ (r : Remote) (st : ServiceState) (t : String),
      lookupRow st.persistMovieSearch (cleanMovieTitle t) ≠ none →
      (searchMovie r (restart st) t).2.2 = 0) ∧
    (∀ (r : Remote) (st : ServiceState) (t : String),
      lookupRow st.memMovieSearch (cleanMovieTitle t) = none →
      lookupRow (searchMovie r st t).2.1.persistMovieSearch (cleanMovieTitle t) ≠ none) ∧
    (∀ (r : Remote) (st : ServiceState) (t : String),
      (searchTv r (searchTv r st t).2.1 t).2.2 = 0) ∧
    (∀ (r : Remote) (st : ServiceState) (t : String),
      lookupRow st.persistTvSearch (cleanMovieTitle t) ≠ none →
      (searchTv r (restart st) t).2.2 = 0) ∧
    (∀ (r : Remote) (st : ServiceState) (t : String),
      lookupRow st.memTvSearch (cleanMovieTitle t) = none →
      lookupRow (searchTv r st t).2.1.persistTvSearch (cleanMovieTitle t) ≠ none) ∧
    (∀ (r : Remote) (st : ServiceState) (i : Int),
      (getMovieDetails r (getMovieDetails r st i).2.1 i).2.2 = 0) ∧
    (∀ (r : Remote) (st : ServiceState) (i : Int),
      lookupRow st.persistMovieDetails i ≠ none →
      (getMovieDetails r (restart st) i).2.2 = 0) ∧
    (∀ (r : Remote) (st : ServiceState) (i : Int),
      lookupRow st.memMovieDetails i = none →
      lookupRow (getMovieDetails r st i).2.1.persistMovieDetails i ≠ none) ∧
    (∀ (r : Remote) (st : ServiceState) (i : Int),
      (getTvDetails r (getTvDetails r st i).2.1 i).2.2 = 0) ∧
    (∀ (r : Remote) (st : ServiceState) (i : Int),
      lookupRow st.persistTvDetails i ≠ none →
      (getTvDetails r (restart st) i).2.2 = 0) ∧
    (∀ (r : Remote) (st : ServiceState) (i : Int),
      lookupRow st.memTvDetails i = none →
      lookupRow (getTvDetails r st i).2.1.persistTvDetails i ≠ none) ∧
    (∀ (r : Remote) (st : ServiceState) (k : Int × Int × Int),
      (getTvEpisodeDetails r (getTvEpisodeDetails r st k).2.1 k).2.2 = 0) ∧
    (∀ (r : Remote) (st : ServiceState) (k : Int × Int × Int),
      lookupRow st.persistEpisode k ≠ none →
      (getTvEpisodeDetails r (restart st) k).2.2 = 0) ∧
    (∀ (r : Remote) (st : ServiceState) (k : Int × Int × Int),
      lookupRow st.memEpisode k = none →
      lookupRow (getTvEpisodeDetails r st k).2.1.persistEpisode k ≠ none) ∧
    (∀ (r : Remote) (st : ServiceState) (i : Int),
      (getTvSeasonCount r st i).2.2 = 1 ∧ (getTvSeasonCount r st i).2.1 = st) := by
  refine ⟨?_, ?_, ?_, ?_, ?_, ?_, ?_, ?_, ?_, ?_, ?_, ?_, ?_, ?_, ?_, ?_⟩
  · intro r st t
    unfold searchMovie
    dsimp only
    exact twoTierFetch_repeat_zero _ _ _ _ _ _
  · intro r st t h
    unfold searchMovie restart
    dsimp only
    exact twoTierFetch_persist_hit_zero _ _ _ _ h
  · intro r st t h
    unfold searchMovie
    dsimp only
    exact twoTierFetch_persist_after _ _ _ _ h
  · intro r st t
    unfold searchTv
    dsimp only
    exact twoTierFetch_repeat_zero _ _ _ _ _ _
  · intro r st t h
    unfold searchTv restart
    dsimp only
    exact twoTierFetch_persist_hit_zero _ _ _ _ h
  · intro r st t h
    unfold searchTv
    dsimp only
    exact twoTierFetch_persist_after _ _ _ _ h
  · intro r st i
    unfold getMovieDetails
    dsimp only
    exact twoTierFetch_repeat_zero _ _ _ _ _ _
  · intro r st i h
    unfold getMovieDetails restart
    dsimp only
    exact twoTierFetch_persist_hit_zero _ _ _ _ h
  · intro r st i h
    unfold getMovieDetails
    dsimp only
    exact twoTierFetch_persist_after _ _ _ _ h
  · intro r st i
    unfold getTvDetails
    dsimp only
    exact twoTierFetch_repeat_zero _ _ _ _ _ _
  · intro r st i h
    unfold getTvDetails restart
    dsimp only
    exact twoTierFetch_persist_hit_zero _ _ _ _ h
  · intro r st i h
    unfold getTvDetails
    dsimp only
    exact twoTierFetch_persist_after _ _ _ _ h
  · intro r st k
    unfold getTvEpisodeDetails
    dsimp only
    exact twoTierFetch_repeat_zero _ _ _ _ _ _
  · intro r st k h
    unfold getTvEpisodeDetails restart
    dsimp only
    exact twoTierFetch_persist_hit_zero _ _ _ _ h
  · intro r st k h
    unfold getTvEpisodeDetails
    dsimp only
    exact twoTierFetch_persist_after _ _ _ _ h
  · intro r st i
    exact ⟨rfl, rfl⟩

/-- C1 witness: after a first search over an empty cache, the same search
in the same process and the same search after a restart both perform zero
remote requests. -/
theorem C1_witness :
    (searchMovie Witness.movieRemote
      (searchMovie Witness.movieRemote Witness.emptyService
        "Inception.2010.1080p.x264").2.1
      "Inception.2010.1080p.x264").2.2 = 0 ∧
    (searchMovie Witness.movieRemote
      (restart (searchMovie Witness.movieRemote Witness.emptyService
        "Inception.2010.1080p.x264").2.1)
      "Inception.2010.1080p.x264").2.2 = 0 := by
  constructor
  · exact C1_two_tier_cached_ops.1 Witness.movieRemote Witness.emptyService _
  · refine C1_two_tier_cached_ops.2.1 Witness.movieRemote _ _ ?_
    exact C1_two_tier_cached_ops.2.2.1 Witness.movieRemote Witness.emptyService
      "Inception.2010.1080p.x264" rfl

end CineBox
